import Mathlib

/-!
Verification of the cube-net folding and traversal program (day 22).

The definitions below are a shallow embedding of the Rust source in
`src/days/day22.rs`: points, directions and rotations, the flat monkey
map and its navigator, the cube construction (face extraction, net
adjacency, fold simulation by BFS) and the cube navigator, together with
the input parsing pipeline used by `solve_a` and `solve_b`.  Machine
integers (`i64`) are modelled as `Int`; `u64`/`usize` counters as `Nat`;
hash sets of points as lists used only through membership; fallible
operations return `Except String`; operations that can panic in Rust
(`unwrap` on arbitrary data, division by zero) are wrapped in `Option`
with `none` for the panic.  Loops whose bound is not structural carry a
fuel argument that provably dominates the number of iterations on every
reachable input, so that all definitions compute by kernel reduction.
-/

set_option maxRecDepth 100000

deriving instance DecidableEq for Except

namespace Day22

/-- 2D integer point, as in the Rust `Point` struct (`i64` fields). -/
structure Point where
  x : Int
  y : Int
deriving DecidableEq, Repr

instance : Inhabited Point := ⟨⟨0, 0⟩⟩

/-- Component-wise addition (`impl Add for Point`). -/
def Point.add (p q : Point) : Point := ⟨p.x + q.x, p.y + q.y⟩

instance : Add Point := ⟨Point.add⟩

/-- Component-wise subtraction (`impl Sub for Point`). -/
def Point.sub (p q : Point) : Point := ⟨p.x - q.x, p.y - q.y⟩

instance : Sub Point := ⟨Point.sub⟩

/-- `Point::in_range`: `min` inclusive, `max` exclusive, both axes. -/
def Point.inRange (p mn mx : Point) : Prop :=
  mn.x ≤ p.x ∧ p.x < mx.x ∧ mn.y ≤ p.y ∧ p.y < mx.y

instance (p mn mx : Point) : Decidable (p.inRange mn mx) := by
  unfold Point.inRange; infer_instance

/-- The instruction type: `Move(n)`, `RotateLeft`, `RotateRight`. -/
inductive Instruction where
  | move (n : Nat)
  | rotateLeft
  | rotateRight
deriving DecidableEq, Repr

/-- The four facings, with the same discriminants as the Rust `enum Direction`. -/
inductive Direction where
  | right
  | down
  | left
  | up
deriving DecidableEq, Repr, Fintype

instance : Inhabited Direction := ⟨.right⟩

/-- Discriminant of a direction (`to_i8`). -/
def Direction.toI8 : Direction → Int
  | .right => 0
  | .down => 1
  | .left => 2
  | .up => 3

/-- `from_i8` on the representable discriminants; every call site feeds a
value already reduced `rem_euclid 4`, so only `0,1,2,3` are reachable. -/
def Direction.fromI8 : Int → Direction
  | 0 => .right
  | 1 => .down
  | 2 => .left
  | _ => .up

/-- `Direction::is_horizontal`: even discriminant. -/
def Direction.isHorizontal (d : Direction) : Bool := d.toI8 % 2 == 0

/-- `Direction::is_vertical`. -/
def Direction.isVertical (d : Direction) : Bool := !d.isHorizontal

/-- `Direction::index` (`to_usize`). -/
def Direction.index : Direction → Nat
  | .right => 0
  | .down => 1
  | .left => 2
  | .up => 3

/-- `Direction::rotate_left`: discriminant minus one, `rem_euclid 4`. -/
def Direction.rotateLeft (d : Direction) : Direction :=
  Direction.fromI8 ((d.toI8 - 1).emod 4)

/-- `Direction::rotate_right`: discriminant plus one, `rem_euclid 4`. -/
def Direction.rotateRight (d : Direction) : Direction :=
  Direction.fromI8 ((d.toI8 + 1).emod 4)

/-- `Direction::inverse`: discriminant plus two, `rem_euclid 4`. -/
def Direction.inverse (d : Direction) : Direction :=
  Direction.fromI8 ((d.toI8 + 2).emod 4)

/-- `Direction::delta`: unit step of each direction. -/
def Direction.delta : Direction → Point
  | .right => ⟨1, 0⟩
  | .down => ⟨0, 1⟩
  | .left => ⟨-1, 0⟩
  | .up => ⟨0, -1⟩

/-- Rust `{:?}` rendering of a direction, used in error messages. -/
def Direction.debugName : Direction → String
  | .right => "Right"
  | .down => "Down"
  | .left => "Left"
  | .up => "Up"

/-- Whether a cube face lies face up or face down (`enum Facing`). -/
inductive Facing where
  | faceUp
  | faceDown
deriving DecidableEq, Repr, Fintype

/-- Quarter-turn rotations, counterclockwise (`enum Rotation`). -/
inductive Rotation where
  | zero
  | ninety
  | oneEighty
  | twoSeventy
deriving DecidableEq, Repr, Fintype

/-- Discriminant of a rotation (`to_i8` / `to_u8`). -/
def Rotation.toI8 : Rotation → Int
  | .zero => 0
  | .ninety => 1
  | .oneEighty => 2
  | .twoSeventy => 3

/-- Number of quarter turns (`to_u8` as a count). -/
def Rotation.count : Rotation → Nat
  | .zero => 0
  | .ninety => 1
  | .oneEighty => 2
  | .twoSeventy => 3

/-- `Rotation::from_i8` on the reachable discriminants `0,1,2,3`. -/
def Rotation.fromI8 : Int → Rotation
  | 0 => .zero
  | 1 => .ninety
  | 2 => .oneEighty
  | _ => .twoSeventy

/-- `Rotation::apply`: rotate a direction counterclockwise, one
`rotate_left` per quarter turn. -/
def Rotation.apply (r : Rotation) (d : Direction) : Direction :=
  Nat.rec d (fun _ ih => ih.rotateLeft) r.count

/-- `Rotation::rotate_left`: increment modulo four. -/
def Rotation.rotateLeft (r : Rotation) : Rotation :=
  Rotation.fromI8 ((r.toI8 + 1).emod 4)

/-- `Rotation::mirror`: add two modulo four. -/
def Rotation.mirror (r : Rotation) : Rotation :=
  Rotation.fromI8 ((r.toI8 + 2).emod 4)

/-- Loop body of `Rotation::difference`: rotate `d` left until it equals
`t`, counting the turns.  The fuel `4` dominates the loop: `rotateLeft`
is a 4-cycle, so at most three turns are ever needed. -/
def Rotation.differenceGo (t : Direction) : Nat → Direction → Rotation → Rotation
  | 0, _, diff => diff
  | fuel + 1, d, diff =>
    if d = t then diff else Rotation.differenceGo t fuel d.rotateLeft diff.rotateLeft

/-- `Rotation::difference`: rotational difference between two directions. -/
def Rotation.difference (f t : Direction) : Rotation :=
  Rotation.differenceGo t 4 f .zero

/-- The per-face state tracked while folding the net
(`enum RotatingCubeFace`). -/
inductive RotatingCubeFace where
  | flat (facing : Facing) (rotated : Rotation)
  | standing (standingOn : Direction) (facing : Direction)
deriving DecidableEq, Repr

instance : Inhabited RotatingCubeFace := ⟨.flat .faceUp .zero⟩

/-- `RotatingCubeFace::rotate`: fold the face once in direction `dir`. -/
def RotatingCubeFace.rotate : RotatingCubeFace → Direction → RotatingCubeFace
  | .flat facing rotated, dir =>
    .standing
      (match facing with
        | .faceUp => (rotated.mirror).apply dir.inverse
        | .faceDown => rotated.apply (if dir.isHorizontal then dir.inverse else dir))
      (match facing with
        | .faceUp => dir
        | .faceDown => dir.inverse)
  | .standing standingOn facing, dir =>
    if facing.isVertical && dir.isVertical then
      let flatFacing := if dir = facing then Facing.faceDown else Facing.faceUp
      let rotated := Rotation.difference standingOn facing
      let rotated := if standingOn = dir then rotated.mirror else rotated
      .flat flatFacing rotated
    else if facing.isHorizontal && dir.isHorizontal then
      let flatFacing := if dir = facing then Facing.faceDown else Facing.faceUp
      let rotated :=
        if standingOn = facing then Rotation.zero
        else if standingOn = facing.inverse then Rotation.oneEighty
        else Rotation.difference dir standingOn
      .flat flatFacing rotated
    else
      let rotation := Rotation.difference facing dir
      .standing (rotation.apply standingOn) facing

/-- A block of uniform width in the monkey map (`struct MonkeyMapBlock`).
The wall set is a list used only through membership. -/
structure MonkeyMapBlock where
  min : Point
  max : Point
  walls : List Point
deriving DecidableEq, Repr

instance : Inhabited MonkeyMapBlock := ⟨⟨⟨0, 0⟩, ⟨0, 0⟩, []⟩⟩

/-- `MonkeyMapBlock::width`. -/
def MonkeyMapBlock.width (b : MonkeyMapBlock) : Int := b.max.x - b.min.x + 1

/-- `MonkeyMapBlock::height`. -/
def MonkeyMapBlock.height (b : MonkeyMapBlock) : Int := b.max.y - b.min.y + 1

/-- The flat monkey map (`struct MonkeyMap`). -/
structure MonkeyMap where
  blocks : List MonkeyMapBlock
deriving DecidableEq, Repr

/-- One movement unit of `MonkeyMap::follow` up to but excluding the wall
check: from block index `bi`, absolute position `pos`, facing `dir`,
compute the candidate block index and position, wrapping `x` within the
current block and `y` across the previous/next block in block order
exactly as the Rust loop body does (the block switch happens before the
wall check, mirroring the mutation order of the source). -/
def MonkeyMap.stepTarget (m : MonkeyMap) (bi : Nat) (pos : Point) (dir : Direction) :
    Nat × Point :=
  let cb := m.blocks.getD bi default
  let next := pos + dir.delta
  let nx : Int :=
    if next.x < cb.min.x then cb.max.x
    else if next.x > cb.max.x then cb.min.x
    else next.x
  if next.y < cb.min.y then
    let previousBlockIndex := if bi = 0 then m.blocks.length - 1 else bi - 1
    let previousBlock := m.blocks.getD previousBlockIndex default
    if previousBlock.min.x ≤ pos.x ∧ pos.x ≤ previousBlock.max.x then
      (previousBlockIndex, ⟨nx, previousBlock.max.y⟩)
    else
      (bi, ⟨nx, cb.max.y⟩)
  else if next.y > cb.max.y then
    let nextBlockIndex := bi + 1
    let nextBlockIndex := if m.blocks.length ≤ nextBlockIndex then 0 else nextBlockIndex
    let nextBlock := m.blocks.getD nextBlockIndex default
    if nextBlock.min.x ≤ pos.x ∧ pos.x ≤ nextBlock.max.x then
      (nextBlockIndex, ⟨nx, nextBlock.min.y⟩)
    else
      (bi, ⟨nx, cb.min.y⟩)
  else
    (bi, ⟨nx, next.y⟩)

/-- The inner `for _ in 0..n` loop of a `Move(n)` instruction in
`MonkeyMap::follow`: step one unit at a time; a step into a wall breaks
out, keeping the position (the block index mutation has already
happened, as in the source). -/
def MonkeyMap.moveUnits (m : MonkeyMap) (bi : Nat) (pos : Point) (dir : Direction) :
    Nat → Nat × Point
  | 0 => (bi, pos)
  | n + 1 =>
    let t := m.stepTarget bi pos dir
    if (m.blocks.getD t.1 default).walls.contains t.2 then
      (t.1, pos)
    else
      m.moveUnits t.1 t.2 dir n

/-- One instruction of `MonkeyMap::follow`: rotations update the facing
only; a move runs the unit loop. -/
def MonkeyMap.runInstr (m : MonkeyMap) (s : (Nat × Point) × Direction) :
    Instruction → (Nat × Point) × Direction
  | .rotateLeft => (s.1, s.2.rotateLeft)
  | .rotateRight => (s.1, s.2.rotateRight)
  | .move n => (m.moveUnits s.1.1 s.1.2 s.2 n, s.2)

/-- The instruction loop of `MonkeyMap::follow`. -/
def MonkeyMap.followGo (m : MonkeyMap) (s : (Nat × Point) × Direction)
    (instructions : List Instruction) : (Nat × Point) × Direction :=
  instructions.foldl m.runInstr s

/-- `MonkeyMap::follow` (`impl Traversable for MonkeyMap`): start at the
minimum corner of block 0 facing right; empty maps are an error. -/
def MonkeyMap.follow (m : MonkeyMap) (instructions : List Instruction) :
    Except String (Point × Direction) :=
  if m.blocks.isEmpty then
    .error "map is empty"
  else
    let r := m.followGo ((0, (m.blocks.getD 0 default).min), .right) instructions
    .ok (r.1.2, r.2)

/-- Split a character list at every occurrence of `sep`, keeping empty
pieces (the shape of splitting used to model `str::lines`). -/
def splitOnChar (sep : Char) : List Char → List (List Char)
  | [] => [[]]
  | c :: cs =>
    if c = sep then [] :: splitOnChar sep cs
    else
      match splitOnChar sep cs with
      | [] => [[c]]
      | a :: rest => (c :: a) :: rest

/-- Drop one trailing carriage return, as `str::lines` does on
newline-terminated lines. -/
def stripCr (l : List Char) : List Char :=
  match l.getLast? with
  | some c => if c = '\r' then l.dropLast else l
  | none => l

/-- `str::lines`: pieces split on a line feed; a final piece after the
last line feed is kept as is (no carriage-return stripping there), and a
trailing line feed produces no empty final line. -/
def rustLines (s : List Char) : List (List Char) :=
  match s with
  | [] => []
  | _ =>
    if s.getLast? = some '\n' then
      ((splitOnChar '\n' s).dropLast).map stripCr
    else
      match (splitOnChar '\n' s).reverse with
      | [] => []
      | lastPart :: revInit => (revInit.reverse.map stripCr) ++ [lastPart]

/-- `str::trim` restricted to the whitespace predicate on characters. -/
def trimChars (l : List Char) : List Char :=
  ((l.dropWhile Char.isWhitespace).reverse.dropWhile Char.isWhitespace).reverse

/-- `line.find(|c| !c.is_whitespace())`. -/
def lineXMin (l : List Char) : Option Nat :=
  l.findIdx? (fun c => !c.isWhitespace)

/-- `line.rfind(|c| !c.is_whitespace())`. -/
def lineXMax (l : List Char) : Option Nat :=
  match l.reverse.findIdx? (fun c => !c.isWhitespace) with
  | none => none
  | some k => some (l.length - 1 - k)

/-- The wall points contributed by one line: hash characters of
`line[x_min..=x_max]`, at absolute coordinates. -/
def lineWalls (l : List Char) (xMin xMax : Nat) (y : Int) : List Point :=
  (((l.drop xMin).take (xMax - xMin + 1)).enum).filterMap
    (fun p => if p.2 = '#' then some ⟨(xMin : Int) + (p.1 : Int), y⟩ else none)

/-- The folding state of `MonkeyMap::from_str`: finished blocks, the
block being grown, and the current row. -/
structure FromStrState where
  blocks : List MonkeyMapBlock
  current : Option MonkeyMapBlock
  y : Int

/-- `create_new_block` in `MonkeyMap::from_str`. -/
def createNewBlock (y xMin xMax : Int) : MonkeyMapBlock :=
  ⟨⟨xMin, y⟩, ⟨xMax, y⟩, []⟩

/-- One iteration of the line loop of `MonkeyMap::from_str`. -/
def MonkeyMap.fromStrLine (st : FromStrState) (line : List Char) :
    Except String FromStrState :=
  match lineXMin line, lineXMax line with
  | none, _ => .error "line has no mapped tiles"
  | some _, none => .error "line has no mapped tiles"
  | some xMin, some xMax =>
    if xMin ≤ xMax then
      let (blocks, current) :=
        match st.current with
        | none => (st.blocks, createNewBlock st.y xMin xMax)
        | some block =>
          if block.min.x ≠ (xMin : Int) ∨ block.max.x ≠ (xMax : Int) then
            (st.blocks ++ [{ block with max := ⟨block.max.x, st.y - 1⟩ }],
             createNewBlock st.y xMin xMax)
          else
            (st.blocks, block)
      let current := { current with walls := current.walls ++ lineWalls line xMin xMax st.y }
      .ok ⟨blocks, some current, st.y + 1⟩
    else
      .error "invalid minimum and maximum x coordinates"

/-- `MonkeyMap::from_str` (`impl FromStr for MonkeyMap`). -/
def MonkeyMap.fromStr (s : List Char) : Except String MonkeyMap := do
  let st ← (rustLines s).foldlM MonkeyMap.fromStrLine ⟨[], none, 0⟩
  match st.current with
  | none => .ok ⟨st.blocks⟩
  | some block => .ok ⟨st.blocks ++ [{ block with max := ⟨block.max.x, st.y - 1⟩ }]⟩

/-- `parse_instructions`, written as a single left-to-right pass: the
pending digit run is carried in `acc` and flushed as a `Move` exactly
where the source pushes it (at the end of the digit run). -/
def parseInstructionsGo : List Char → Option Nat → Except String (List Instruction)
  | [], none => .ok []
  | [], some n => .ok [.move n]
  | c :: cs, acc =>
    if c = 'L' then
      match acc with
      | none => (Instruction.rotateLeft :: ·) <$> parseInstructionsGo cs none
      | some n =>
        (fun r => Instruction.move n :: Instruction.rotateLeft :: r) <$>
          parseInstructionsGo cs none
    else if c = 'R' then
      match acc with
      | none => (Instruction.rotateRight :: ·) <$> parseInstructionsGo cs none
      | some n =>
        (fun r => Instruction.move n :: Instruction.rotateRight :: r) <$>
          parseInstructionsGo cs none
    else if c.isDigit then
      parseInstructionsGo cs (some (10 * acc.getD 0 + (c.toNat - 48)))
    else
      .error ("invalid instruction character: " ++ c.toString)

/-- `parse_instructions`. -/
def parseInstructions (input : List Char) : Except String (List Instruction) :=
  parseInstructionsGo input none

/-- Cursor state of the `NewlineBlocksIterator` from `common/blocks.rs`. -/
structure NBState where
  nextGroupBegin : Nat
  nextIndex : Nat
deriving Repr

/-- `NewlineBlocksIterator::find_next_newline`; fuel bounds the scan by
the input length. -/
def nbFindNextNewline (bytes : List Char) : Nat → NBState → Option Nat × NBState
  | 0, st => (none, { st with nextIndex := bytes.length })
  | fuel + 1, st =>
    if st.nextIndex < bytes.length then
      if bytes.getD st.nextIndex ' ' = '\n' then
        let i := st.nextIndex
        let r :=
          if st.nextGroupBegin < i ∧ bytes.getD (i - 1) ' ' = '\r' then some (i - 1)
          else some i
        (r, { st with nextIndex := i + 1 })
      else
        nbFindNextNewline bytes fuel { st with nextIndex := st.nextIndex + 1 }
    else
      (none, { st with nextIndex := bytes.length })

/-- `NewlineBlocksIterator::get_next_byte`. -/
def nbGetNextByte (bytes : List Char) (st : NBState) : Option Char × NBState :=
  if bytes.length ≤ st.nextIndex then (none, st)
  else (some (bytes.getD st.nextIndex ' '), { st with nextIndex := st.nextIndex + 1 })

/-- `NewlineBlocksIterator::try_finish_group`: consume `k` further
newline (or carriage-return newline) pairs; `k` is `newlines - 1`. -/
def nbTryFinishGroup (bytes : List Char) : Nat → NBState → Bool × NBState
  | 0, st => (true, st)
  | k + 1, st =>
    match nbGetNextByte bytes st with
    | (none, st1) => (false, st1)
    | (some c, st1) =>
      if c = '\n' then nbTryFinishGroup bytes k st1
      else if c = '\r' then
        match nbGetNextByte bytes st1 with
        | (none, st2) => (false, st2)
        | (some c2, st2) =>
          if c2 = '\n' then nbTryFinishGroup bytes k st2 else (false, st2)
      else
        (false, st1)

/-- The `while let` loop in `NewlineBlocksIterator::next`; the fuel
dominates the loop because `nextIndex` strictly increases at every
failed attempt. -/
def nbNextLoop (bytes : List Char) (k : Nat) : Nat → NBState → Option (List Char) × NBState
  | 0, st => (none, st)
  | fuel + 1, st =>
    match nbFindNextNewline bytes bytes.length st with
    | (some i, st1) =>
      match nbTryFinishGroup bytes k st1 with
      | (true, st2) =>
        (some ((bytes.take i).drop st2.nextGroupBegin),
         { st2 with nextGroupBegin := st2.nextIndex })
      | (false, st2) => nbNextLoop bytes k fuel st2
    | (none, st1) =>
      (some (bytes.drop st1.nextGroupBegin), { st1 with nextIndex := bytes.length })

/-- `NewlineBlocksIterator::next`. -/
def nbNext (bytes : List Char) (k : Nat) (st : NBState) : Option (List Char) × NBState :=
  if bytes.length ≤ st.nextIndex then (none, st)
  else nbNextLoop bytes k (bytes.length + 1) st

/-- Collect the whole iterator. -/
def nbCollect (bytes : List Char) (k : Nat) : Nat → NBState → List (List Char)
  | 0, _ => []
  | fuel + 1, st =>
    match nbNext bytes k st with
    | (none, _) => []
    | (some g, st1) => g :: nbCollect bytes k fuel st1

/-- `str::newline_blocks(newlines).collect()`. -/
def newlineBlocks (s : List Char) (newlines : Nat) : List (List Char) :=
  nbCollect s (newlines - 1) (s.length + 1) ⟨0, 0⟩

/-- `parse_map_and_instructions`: exactly two newline-separated groups,
the map and the trimmed instruction line. -/
def parseMapAndInstructions (input : List Char) :
    Except String (MonkeyMap × List Instruction) :=
  match newlineBlocks input 2 with
  | [mp, instrs] => do
    let m ← MonkeyMap.fromStr mp
    let ins ← parseInstructions (trimChars instrs)
    .ok (m, ins)
  | _ => .error "invalid input"

/-- `final_password`: the `u64` conversion fails exactly on negative
passwords (`TryFromIntError` display text). -/
def finalPassword (position : Point) (dir : Direction) : Except String Nat :=
  let password : Int := 1000 * (position.y + 1) + 4 * (position.x + 1) + dir.toI8
  if 0 ≤ password then .ok password.toNat
  else .error "out of range integral type conversion attempted"

/-- `Direction::from_usize` on the reachable values `0,1,2,3`. -/
def Direction.fromNat : Nat → Direction
  | 0 => .right
  | 1 => .down
  | 2 => .left
  | _ => .up

/-- `usize::MAX`, the placeholder neighbor index before folding. -/
def usizeMax : Nat := 2 ^ 64 - 1

/-- One face of the folded cube (`struct MonkeyCubeFace`). -/
structure MonkeyCubeFace where
  min : Point
  max : Point
  walls : List Point
  neighbors : List Nat
deriving DecidableEq, Repr

instance : Inhabited MonkeyCubeFace := ⟨⟨⟨0, 0⟩, ⟨0, 0⟩, [], []⟩⟩

/-- The folded cube (`struct MonkeyCube`). -/
structure MonkeyCube where
  faceLength : Int
  faces : List MonkeyCubeFace
deriving DecidableEq, Repr

/-- The face length used by the extractor, `map.blocks.iter().map(height).max()`. -/
def cubeFaceLength (map : MonkeyMap) : Option Int :=
  (map.blocks.map MonkeyMapBlock.height).max?

/-- The face-extraction step of `MonkeyCube::try_from`: slice every block
into `faceLength × faceLength` squares (`i` over width divisions outside,
`j` over height divisions inside), each carrying the walls that fall in
it translated to face-local coordinates.  `Int.tdiv` is the truncated
division of Rust `i64`. -/
def extractFaces (map : MonkeyMap) (L : Int) : List MonkeyCubeFace :=
  (map.blocks.map (fun block =>
    let xBlocks := Int.tdiv block.width L
    let yBlocks := Int.tdiv block.height L
    let facesAt := fun (i : Nat) =>
      (List.range yBlocks.toNat).map (fun j =>
        let mn : Point := ⟨block.min.x + (i : Int) * L, block.min.y + (j : Int) * L⟩
        let mx : Point := mn + ⟨L, L⟩
        ({ min := mn
           max := mx
           walls := (block.walls.filter (fun p => decide (p.inRange mn mx))).map (· - mn)
           neighbors := List.replicate 4 usizeMax } : MonkeyCubeFace))
    ((List.range xBlocks.toNat).map facesAt).flatten)).flatten

/-- Read entry `(i, d)` of a 6 × 4 table of optional indices. -/
def net2Get (net : List (List (Option Nat))) (i d : Nat) : Option Nat :=
  (net.getD i []).getD d none

/-- Write entry `(i, d)` of a 6 × 4 table of optional indices. -/
def net2Set (net : List (List (Option Nat))) (i d : Nat) (v : Option Nat) :
    List (List (Option Nat)) :=
  net.set i ((net.getD i []).set d v)

/-- The net-adjacency step of `MonkeyCube::try_from`: for each face, look
for the face geometrically abutting each probe point, linking both
directions; probes are tried in the source order right, left, up, down,
each guarded on the entry still being unset. -/
def buildCubeNet (faces : List MonkeyCubeFace) : List (List (Option Nat)) :=
  (List.range faces.length).foldl (fun net i =>
    let f := faces.getD i default
    let mn := f.min
    let mx := f.max
    let net :=
      if (net2Get net i Direction.right.index).isNone then
        match faces.findIdx? (fun g => decide (Point.inRange ⟨mx.x, mn.y⟩ g.min g.max)) with
        | some ri => net2Set (net2Set net i Direction.right.index (some ri))
            ri Direction.left.index (some i)
        | none => net
      else net
    let net :=
      if (net2Get net i Direction.left.index).isNone then
        match faces.findIdx? (fun g => decide (Point.inRange ⟨mn.x - 1, mn.y⟩ g.min g.max)) with
        | some li => net2Set (net2Set net i Direction.left.index (some li))
            li Direction.right.index (some i)
        | none => net
      else net
    let net :=
      if (net2Get net i Direction.up.index).isNone then
        match faces.findIdx? (fun g => decide (Point.inRange ⟨mn.x, mn.y - 1⟩ g.min g.max)) with
        | some ui => net2Set (net2Set net i Direction.up.index (some ui))
            ui Direction.down.index (some i)
        | none => net
      else net
    let net :=
      if (net2Get net i Direction.down.index).isNone then
        match faces.findIdx? (fun g => decide (Point.inRange ⟨mn.x, mx.y⟩ g.min g.max)) with
        | some di => net2Set (net2Set net i Direction.down.index (some di))
            di Direction.up.index (some i)
        | none => net
      else net
    net) (List.replicate 6 (List.replicate 4 none))

/-- The working state of one folding BFS run. -/
structure FoldBfs where
  queue : List Nat
  seen : List Bool
  state : List RotatingCubeFace

/-- Process one edge of the popped face in the folding BFS: an unseen net
neighbor gets the rotated state; if that state is standing, the root face
`i` gains a folded neighbor on the edge it stands on. -/
def foldBfsEdge (cubeNet : List (List (Option Nat))) (i position edge : Nat)
    (acc : FoldBfs × List (List (Option Nat))) : FoldBfs × List (List (Option Nat)) :=
  let (bfs, folded) := acc
  match net2Get cubeNet position edge with
  | none => (bfs, folded)
  | some neighbor =>
    if bfs.seen.getD neighbor false then (bfs, folded)
    else
      let nextState := (bfs.state.getD position default).rotate (Direction.fromNat edge)
      let folded :=
        match nextState with
        | .standing standingOn _ => net2Set folded i standingOn.index (some neighbor)
        | _ => folded
      ({ queue := bfs.queue ++ [neighbor]
         seen := bfs.seen.set neighbor true
         state := bfs.state.set neighbor nextState }, folded)

/-- The `while let` queue loop of one folding BFS run.  The fuel
dominates the loop: every face is enqueued at most once (the `seen`
guard), so at most six pops can ever happen. -/
def foldBfsLoop (cubeNet : List (List (Option Nat))) (i : Nat) :
    Nat → FoldBfs × List (List (Option Nat)) → List (List (Option Nat))
  | 0, acc => acc.2
  | fuel + 1, (bfs, folded) =>
    match bfs.queue with
    | [] => folded
    | position :: rest =>
      foldBfsLoop cubeNet i fuel
        ([0, 1, 2, 3].foldl (fun acc edge => foldBfsEdge cubeNet i position edge acc)
          ({ bfs with queue := rest }, folded))

/-- The folding simulation of `MonkeyCube::try_from`: starting from the
net adjacency, run one BFS per face `i` with `i` flat face up and
unrotated, recording the folded neighbors of `i`. -/
def foldCubeNet (cubeNet : List (List (Option Nat))) (n : Nat) : List (List (Option Nat)) :=
  (List.range n).foldl (fun folded i =>
    foldBfsLoop cubeNet i (n + 1)
      ({ queue := [i]
         seen := (List.replicate 6 false).set i true
         state := (List.replicate 6 (RotatingCubeFace.flat .faceUp .zero)).set i
           (RotatingCubeFace.flat .faceUp .zero) }, folded)) cubeNet

/-- The error text for an unresolved neighbor direction
(`missing neighbor on {:?} edge for face {i}`). -/
def missingNeighborMsg (d i : Nat) : String :=
  "missing neighbor on " ++ (Direction.fromNat d).debugName ++ " edge for face " ++ toString i

/-- Resolve the four neighbor entries of face `i`, failing on the first
unresolved direction. -/
def assignRow (folded : List (List (Option Nat))) (i : Nat) :
    List Nat → Except String (List Nat)
  | [] => .ok []
  | d :: ds =>
    match net2Get folded i d with
    | none => .error (missingNeighborMsg d i)
    | some n => (n :: ·) <$> assignRow folded i ds

/-- The final assignment loop of `MonkeyCube::try_from` over indexed
faces, failing on the first face with an unresolved direction. -/
def assignGo (folded : List (List (Option Nat))) :
    List (Nat × MonkeyCubeFace) → Except String (List MonkeyCubeFace)
  | [] => .ok []
  | (i, f) :: rest => do
    let row ← assignRow folded i [0, 1, 2, 3]
    let others ← assignGo folded rest
    .ok ({ f with neighbors := row } :: others)

/-- `MonkeyCube::try_from`.  The outer `Option` marks the two panics of
the source: `max().unwrap()` on an empty block list, and the division by
a zero face length while slicing. -/
def MonkeyCube.tryFrom? (map : MonkeyMap) : Option (Except String MonkeyCube) :=
  match cubeFaceLength map with
  | none => none
  | some L =>
    if L = 0 then none
    else
      some (do
        let faces := extractFaces map L
        if faces.length = 6 then do
          let cubeNet := buildCubeNet faces
          let folded := foldCubeNet cubeNet faces.length
          let resolved ← assignGo folded faces.enum
          .ok { faceLength := L, faces := resolved }
        else
          .error ("expected 6 faces, found " ++ toString faces.length))

/-- `MonkeyCube::get_neighbor`; `none` is the panic of the `unwrap` on
the back-reference search. -/
def MonkeyCube.getNeighbor (c : MonkeyCube) (face : Nat) (edge : Direction) :
    Option (Nat × Direction) :=
  let nextFace := (c.faces.getD face default).neighbors.getD edge.index 0
  match (c.faces.getD nextFace default).neighbors.findIdx? (fun n => n == face) with
  | none => none
  | some k => some (nextFace, Direction.fromNat k)

/-- One movement unit of `MonkeyCube::follow` up to but excluding the
wall check: either a same-face step, or an edge crossing through
`get_neighbor` with the local-coordinate and facing remap of the source. -/
def MonkeyCube.stepTarget (c : MonkeyCube) (face : Nat) (pos : Point) (dir : Direction) :
    Option (Nat × Point × Direction) :=
  let nextPosition := pos + dir.delta
  let wrapped :=
    if nextPosition.x < 0 then some (c.getNeighbor face .left)
    else if c.faceLength ≤ nextPosition.x then some (c.getNeighbor face .right)
    else if nextPosition.y < 0 then some (c.getNeighbor face .up)
    else if c.faceLength ≤ nextPosition.y then some (c.getNeighbor face .down)
    else none
  match wrapped with
  | none => some (face, nextPosition, dir)
  | some none => none
  | some (some (nextFace, onEdge)) =>
    let nextDir := onEdge.inverse
    let nextX : Int :=
      match onEdge with
      | .right => c.faceLength - 1
      | .left => 0
      | _ =>
        match Rotation.difference dir nextDir with
        | .zero => pos.x
        | .ninety => pos.y
        | .oneEighty => c.faceLength - pos.x - 1
        | .twoSeventy => c.faceLength - pos.y - 1
    let nextY : Int :=
      match onEdge with
      | .down => c.faceLength - 1
      | .up => 0
      | _ =>
        match Rotation.difference dir nextDir with
        | .zero => pos.y
        | .ninety => c.faceLength - pos.x - 1
        | .oneEighty => c.faceLength - pos.y - 1
        | .twoSeventy => pos.x
    some (nextFace, ⟨nextX, nextY⟩, nextDir)

/-- The inner `for _ in 0..n` loop of a `Move(n)` instruction in
`MonkeyCube::follow`: a step into a wall breaks out with the whole state
unchanged. -/
def MonkeyCube.moveUnits (c : MonkeyCube) (face : Nat) (pos : Point) (dir : Direction) :
    Nat → Option (Nat × Point × Direction)
  | 0 => some (face, pos, dir)
  | n + 1 =>
    match c.stepTarget face pos dir with
    | none => none
    | some (nextFace, nextPosition, nextDir) =>
      if (c.faces.getD nextFace default).walls.contains nextPosition then
        some (face, pos, dir)
      else
        c.moveUnits nextFace nextPosition nextDir n

/-- One instruction of `MonkeyCube::follow`. -/
def MonkeyCube.runInstr (c : MonkeyCube) (s : Nat × Point × Direction) :
    Instruction → Option (Nat × Point × Direction)
  | .rotateLeft => some (s.1, s.2.1, s.2.2.rotateLeft)
  | .rotateRight => some (s.1, s.2.1, s.2.2.rotateRight)
  | .move n => c.moveUnits s.1 s.2.1 s.2.2 n

/-- `MonkeyCube::follow` (`impl Traversable for MonkeyCube`): face-local
traversal from face 0 at the origin facing right, translated back to
absolute coordinates at the end. -/
def MonkeyCube.follow (c : MonkeyCube) (instructions : List Instruction) :
    Option (Point × Direction) :=
  match instructions.foldlM c.runInstr (0, ⟨0, 0⟩, .right) with
  | none => none
  | some (face, pos, dir) => some (pos + (c.faces.getD face default).min, dir)

/-- `solve_a`: flat navigation. -/
def solveA (input : String) : Except String Nat := do
  let (map, instructions) ← parseMapAndInstructions input.toList
  let (position, dir) ← map.follow instructions
  finalPassword position dir

/-- `solve_b`: cube navigation; the outer `Option` propagates the panics
of `MonkeyCube::try_from` and `MonkeyCube::get_neighbor`. -/
def solveB (input : String) : Option (Except String Nat) :=
  match parseMapAndInstructions input.toList with
  | .error e => some (.error e)
  | .ok (map, instructions) =>
    match MonkeyCube.tryFrom? map with
    | none => none
    | some (.error e) => some (.error e)
    | some (.ok cube) =>
      match cube.follow instructions with
      | none => none
      | some (position, dir) => some (finalPassword position dir)

/-! ## The worked example: standard cross net, face length 4 -/

/-- The standard 4×3-block cross net of face length 4 with the example
instruction sequence, exactly as the program reads it: the net text, a
blank line, then `10R5L5R10L4R5L5`. -/
def exampleInput : String :=
  "        ...#\n        .#..\n        #...\n        ....\n...#.......#\n........#...\n..#....#....\n..........#.\n        ...#....\n        .....#..\n        .#......\n        ......#.\n\n10R5L5R10L4R5L5"

/-- C1: on the standard cross cube net of face length 4, following the
instruction sequence `10R5L5R10L4R5L5`, the cube navigator (`solve_b`)
produces password 5031 and the flat navigator (`solve_a`) produces
password 6032. -/
theorem c1_example_passwords :
    solveA exampleInput = Except.ok 6032 ∧ solveB exampleInput = some (Except.ok 5031) :=
  ⟨rfl, rfl⟩

/-! ## The fold transition out of a flat state (spec refinement) -/

/-- Modelled from the spec: the fold transition from a `Flat` state as
the spec words it, with `standingOn = d` (`inverse d` when face down)
and `facingEdge = mirror(rotation).apply(inverse(d))` (face up) or
`rotation.apply(d horizontal ? inverse d : d)` (face down). -/
def specFlatRotateClaimed (facing : Facing) (r : Rotation) (d : Direction) :
    RotatingCubeFace :=
  match facing with
  | .faceUp => .standing d ((r.mirror).apply d.inverse)
  | .faceDown => .standing d.inverse (r.apply (if d.isHorizontal then d.inverse else d))

/-- Modelled from the spec: the same transition with the two `Standing`
fields exchanged, matching the order the source constructor uses. -/
def specFlatRotateAmended (facing : Facing) (r : Rotation) (d : Direction) :
    RotatingCubeFace :=
  match facing with
  | .faceUp => .standing ((r.mirror).apply d.inverse) d
  | .faceDown => .standing (r.apply (if d.isHorizontal then d.inverse else d)) d.inverse

/-- C2, counterexample: at rotation 90° and direction right, the code
does not produce the `Standing` state the claim describes — the claimed
`standingOn` and `facingEdge` are exchanged relative to the code. -/
theorem c2_counterexample :
    RotatingCubeFace.rotate (.flat .faceUp .ninety) .right ≠
      specFlatRotateClaimed .faceUp .ninety .right := by decide

/-- C2, amended: for every rotation and direction, the fold transition
from a flat state yields a standing state whose `standingOn` (first
field) is `mirror(r).apply(inverse(d))` for a face-up state and
`r.apply(inverse d / d)` for a face-down state, and whose `facingEdge`
(second field) is `d` respectively `inverse d` — the two fields the
claim had swapped. -/
theorem c2_flat_rotate_amended :
    ∀ (f : Facing) (r : Rotation) (d : Direction),
      RotatingCubeFace.rotate (.flat f r) d = specFlatRotateAmended f r d := by decide

/-! ## Four folds in the same direction (loop-around) -/

/-- C8: from any flat state, four consecutive folds in one direction
return to a flat state with the same facing. -/
theorem c8_four_rotations_flat :
    ∀ (f : Facing) (r : Rotation) (d : Direction),
      ∃ r' : Rotation,
        ((((RotatingCubeFace.flat f r).rotate d).rotate d).rotate d).rotate d =
          .flat f r' := by decide

/-! ## Rotation instructions -/

/-- C7: in both navigators a rotation instruction changes the facing
only: the block index and position (and, on the cube, the face index)
are untouched, and the result does not depend on the map or cube at all
— in particular no wall set is consulted. -/
theorem c7_rotations_change_facing_only :
    ∀ (m m' : MonkeyMap) (s : (Nat × Point) × Direction) (c c' : MonkeyCube)
      (t : Nat × Point × Direction),
      m.runInstr s .rotateLeft = (s.1, s.2.rotateLeft) ∧
      m.runInstr s .rotateRight = (s.1, s.2.rotateRight) ∧
      m.runInstr s .rotateLeft = m'.runInstr s .rotateLeft ∧
      m.runInstr s .rotateRight = m'.runInstr s .rotateRight ∧
      c.runInstr t .rotateLeft = some (t.1, t.2.1, t.2.2.rotateLeft) ∧
      c.runInstr t .rotateRight = some (t.1, t.2.1, t.2.2.rotateRight) ∧
      c.runInstr t .rotateLeft = c'.runInstr t .rotateLeft ∧
      c.runInstr t .rotateRight = c'.runInstr t .rotateRight := by
  intro m m' s c c' t
  exact ⟨rfl, rfl, rfl, rfl, rfl, rfl, rfl, rfl⟩

/-! ## The start state -/

/-- C9: with no instructions, the flat navigator of a nonempty map
returns the minimum corner of block 0 facing right, and the cube
navigator returns the minimum corner of face 0 facing right; neither
start cell is checked against the wall set (the statement holds for
arbitrary wall sets, including a wall on the start cell itself). -/
theorem c9_empty_instructions_start :
    (∀ m : MonkeyMap, m.blocks ≠ [] →
      m.follow [] = .ok ((m.blocks.getD 0 default).min, .right)) ∧
    (∀ c : MonkeyCube, c.follow [] = some ((c.faces.getD 0 default).min, .right)) := by
  constructor
  · intro m h
    unfold MonkeyMap.follow
    rw [if_neg (by simpa [List.isEmpty_iff] using h)]
    rfl
  · intro c
    have h : Point.add ⟨0, 0⟩ (c.faces.getD 0 default).min = (c.faces.getD 0 default).min := by
      cases hm : (c.faces.getD 0 default).min with
      | mk a b => simp [Point.add]
    calc c.follow []
        = some ((⟨0, 0⟩ : Point) + (c.faces.getD 0 default).min, .right) := rfl
      _ = some ((c.faces.getD 0 default).min, .right) := by
          show some (Point.add _ _, _) = _
          rw [h]

/-- A one-block map whose start cell is itself a wall. -/
def c9WitnessMap : MonkeyMap := ⟨[⟨⟨0, 0⟩, ⟨1, 0⟩, [⟨0, 0⟩]⟩]⟩

/-- C9 witness: the flat part applied to a concrete map that has a wall
on the start cell still starts there. -/
theorem c9_empty_instructions_start_witness :
    c9WitnessMap.blocks ≠ [] ∧
      c9WitnessMap.follow [] = .ok (⟨0, 0⟩, .right) := by
  refine ⟨by decide, ?_⟩
  exact c9_empty_instructions_start.1 c9WitnessMap (by decide)

/-! ## Wall collisions -/

/-- C6: in both navigators a movement unit whose target cell is a wall
is not an error: the unit loop stops immediately with the position kept
at the last valid cell, the following instructions still run from that
state, and (for the flat navigator) traversal of a nonempty map always
returns a result, walls or not. -/
theorem c6_wall_cancels_move :
    (∀ (m : MonkeyMap) (bi : Nat) (pos : Point) (dir : Direction) (n : Nat),
      (m.blocks.getD (m.stepTarget bi pos dir).1 default).walls.contains
          (m.stepTarget bi pos dir).2 = true →
        m.moveUnits bi pos dir (n + 1) = ((m.stepTarget bi pos dir).1, pos)) ∧
    (∀ (m : MonkeyMap) (s : (Nat × Point) × Direction) (k : Nat)
        (rest : List Instruction),
      m.followGo s (.move k :: rest) =
        m.followGo (m.moveUnits s.1.1 s.1.2 s.2 k, s.2) rest) ∧
    (∀ (m : MonkeyMap) (instructions : List Instruction), m.blocks ≠ [] →
      ∃ r, m.follow instructions = .ok r) ∧
    (∀ (c : MonkeyCube) (face : Nat) (pos : Point) (dir : Direction)
        (t : Nat × Point × Direction) (n : Nat),
      c.stepTarget face pos dir = some t →
      (c.faces.getD t.1 default).walls.contains t.2.1 = true →
        c.moveUnits face pos dir (n + 1) = some (face, pos, dir)) ∧
    (∀ (c : MonkeyCube) (s : Nat × Point × Direction) (k : Nat)
        (rest : List Instruction),
      (Instruction.move k :: rest).foldlM c.runInstr s =
        c.moveUnits s.1 s.2.1 s.2.2 k >>= fun u => rest.foldlM c.runInstr u) := by
  refine ⟨?_, ?_, ?_, ?_, ?_⟩
  · intro m bi pos dir n h
    unfold MonkeyMap.moveUnits
    rw [if_pos h]
  · intro m s k rest
    rfl
  · intro m instructions h
    unfold MonkeyMap.follow
    rw [if_neg (by simpa [List.isEmpty_iff] using h)]
    exact ⟨_, rfl⟩
  · intro c face pos dir t n hstep hwall
    obtain ⟨a, b, e⟩ := t
    dsimp only at hwall
    unfold MonkeyCube.moveUnits
    rw [hstep]
    dsimp only
    rw [if_pos hwall]
  · intro c s k rest
    rfl

/-- A one-block map with a wall one step to the right of the corner. -/
def c6WitnessMap : MonkeyMap := ⟨[⟨⟨0, 0⟩, ⟨2, 0⟩, [⟨1, 0⟩]⟩]⟩

/-- A cube of face length 2 with a wall at `(1, 0)` of face 0. -/
def c6WitnessCube : MonkeyCube :=
  ⟨2, [⟨⟨0, 0⟩, ⟨2, 2⟩, [⟨1, 0⟩], [0, 0, 0, 0]⟩]⟩

/-- C6 witness: both wall clauses and the no-error clause applied at
concrete inputs where the next cell is a wall. -/
theorem c6_wall_cancels_move_witness :
    c6WitnessMap.moveUnits 0 ⟨0, 0⟩ .right 5 =
        ((c6WitnessMap.stepTarget 0 ⟨0, 0⟩ .right).1, ⟨0, 0⟩) ∧
    (∃ r, c6WitnessMap.follow [.move 3] = .ok r) ∧
    c6WitnessCube.moveUnits 0 ⟨0, 0⟩ .right 5 = some (0, ⟨0, 0⟩, .right) := by
  refine ⟨?_, ?_, ?_⟩
  · exact c6_wall_cancels_move.1 c6WitnessMap 0 ⟨0, 0⟩ .right 4 (by decide)
  · exact c6_wall_cancels_move.2.2.1 c6WitnessMap [.move 3] (by decide)
  · exact c6_wall_cancels_move.2.2.2.1 c6WitnessCube 0 ⟨0, 0⟩ .right
      (0, ⟨1, 0⟩, .right) 4 (by decide) (by decide)

/-! ## Cyclic block order in vertical wraparound -/

/-- C10: in the flat navigator, block order is cyclic for vertical
wrapping: a unit step off the top of block 0 probes the last block as
the previous block (entering it exactly when its x-range covers the
current x, otherwise wrapping to the bottom of block 0), and a unit step
off the bottom of the last block probes block 0 as the next block
(entering it exactly when its x-range covers the current x, otherwise
wrapping to the top of the last block); in both cases the y coordinate
lands on the far edge of the block actually selected. -/
theorem c10_cyclic_vertical_wrap :
    (∀ (m : MonkeyMap) (pos : Point) (dir : Direction),
      m.blocks ≠ [] →
      (pos + dir.delta).y < (m.blocks.getD 0 default).min.y →
        (m.stepTarget 0 pos dir).1 =
          (if (m.blocks.getD (m.blocks.length - 1) default).min.x ≤ pos.x ∧
              pos.x ≤ (m.blocks.getD (m.blocks.length - 1) default).max.x then
            m.blocks.length - 1
          else 0) ∧
        (m.stepTarget 0 pos dir).2.y =
          (m.blocks.getD (m.stepTarget 0 pos dir).1 default).max.y) ∧
    (∀ (m : MonkeyMap) (pos : Point) (dir : Direction),
      m.blocks ≠ [] →
      (m.blocks.getD (m.blocks.length - 1) default).min.y ≤
        (m.blocks.getD (m.blocks.length - 1) default).max.y →
      (m.blocks.getD (m.blocks.length - 1) default).max.y < (pos + dir.delta).y →
        (m.stepTarget (m.blocks.length - 1) pos dir).1 =
          (if (m.blocks.getD 0 default).min.x ≤ pos.x ∧
              pos.x ≤ (m.blocks.getD 0 default).max.x then
            0
          else m.blocks.length - 1) ∧
        (m.stepTarget (m.blocks.length - 1) pos dir).2.y =
          (m.blocks.getD (m.stepTarget (m.blocks.length - 1) pos dir).1 default).min.y) := by
  constructor
  · intro m pos dir hne hy
    simp only [MonkeyMap.stepTarget, if_pos hy, eq_self_iff_true, if_true]
    by_cases hc : (m.blocks.getD (m.blocks.length - 1) default).min.x ≤ pos.x ∧
        pos.x ≤ (m.blocks.getD (m.blocks.length - 1) default).max.x
    · simp only [if_pos hc]
      exact ⟨trivial, trivial⟩
    · simp only [if_neg hc]
      exact ⟨trivial, trivial⟩
  · intro m pos dir hne hwf hy
    have hnotup : ¬ (pos + dir.delta).y < (m.blocks.getD (m.blocks.length - 1) default).min.y :=
      not_lt.mpr (le_trans hwf (le_of_lt hy))
    have hlen : m.blocks.length ≤ m.blocks.length - 1 + 1 := by
      have := List.length_pos.mpr hne
      omega
    simp only [MonkeyMap.stepTarget, if_neg hnotup, if_pos hy, if_pos hlen]
    by_cases hc : (m.blocks.getD 0 default).min.x ≤ pos.x ∧
        pos.x ≤ (m.blocks.getD 0 default).max.x
    · simp only [if_pos hc]
      exact ⟨trivial, trivial⟩
    · simp only [if_neg hc]
      exact ⟨trivial, trivial⟩

/-- A two-block map for the cyclic wrap witness. -/
def c10WitnessMap : MonkeyMap :=
  ⟨[⟨⟨0, 0⟩, ⟨1, 1⟩, []⟩, ⟨⟨0, 2⟩, ⟨5, 3⟩, []⟩]⟩

/-- C10 witness: off the top of block 0 at the concrete map the step
enters block 1 (the last block) at its bottom row, and off the bottom of
block 1 it enters block 0 at its top row. -/
theorem c10_cyclic_vertical_wrap_witness :
    (c10WitnessMap.stepTarget 0 ⟨0, 0⟩ .up = (1, ⟨0, 3⟩) ∧
      c10WitnessMap.stepTarget 1 ⟨0, 3⟩ .down = (0, ⟨0, 0⟩)) := by
  have h1 := c10_cyclic_vertical_wrap.1 c10WitnessMap ⟨0, 0⟩ .up (by decide) (by decide)
  have h2 := c10_cyclic_vertical_wrap.2 c10WitnessMap ⟨0, 3⟩ .down (by decide) (by decide)
    (by decide)
  have e : c10WitnessMap.blocks.length - 1 = 1 := rfl
  rw [e] at h1 h2
  constructor
  · have hx : c10WitnessMap.stepTarget 0 ⟨0, 0⟩ Direction.up =
        ((c10WitnessMap.stepTarget 0 ⟨0, 0⟩ Direction.up).1,
         ⟨(c10WitnessMap.stepTarget 0 ⟨0, 0⟩ Direction.up).2.x,
          (c10WitnessMap.stepTarget 0 ⟨0, 0⟩ Direction.up).2.y⟩) := rfl
    rw [hx, h1.2, h1.1]
    decide
  · have hx : c10WitnessMap.stepTarget 1 ⟨0, 3⟩ Direction.down =
        ((c10WitnessMap.stepTarget 1 ⟨0, 3⟩ Direction.down).1,
         ⟨(c10WitnessMap.stepTarget 1 ⟨0, 3⟩ Direction.down).2.x,
          (c10WitnessMap.stepTarget 1 ⟨0, 3⟩ Direction.down).2.y⟩) := rfl
    rw [hx, h2.2, h2.1]
    decide

/-! ## The face edge length used by the extractor -/

theorem Point.add_x (p q : Point) : (p + q).x = p.x + q.x := rfl

theorem Point.add_y (p q : Point) : (p + q).y = p.y + q.y := rfl

/-- A two-block map whose blocks have heights 1 and 2. -/
def c3Map : MonkeyMap := ⟨[⟨⟨0, 0⟩, ⟨1, 0⟩, []⟩, ⟨⟨0, 1⟩, ⟨2, 2⟩, []⟩]⟩

/-- C3, counterexample: on a map whose block heights are 1 and 2 the
extractor uses edge length 2 — the maximum block height — while the
minimum block height is 1, and the (single) extracted face indeed has
edge 2; so the edge length is not the minimum block height. -/
theorem c3_counterexample :
    cubeFaceLength c3Map = some 2 ∧
    (c3Map.blocks.map MonkeyMapBlock.height).min? = some 1 ∧
    (∃ f ∈ extractFaces c3Map 2, f.max.x - f.min.x = 2) ∧
    (2 : Int) ≠ 1 := by decide

/-- C3, amended: the uniform face edge length used by the face extractor
equals the maximum block height across all input blocks, and every
extracted face is a square of exactly that edge length. -/
theorem c3_face_length_is_max_height (map : MonkeyMap) (L : Int)
    (h : cubeFaceLength map = some L) :
    (∀ b ∈ map.blocks, b.height ≤ L) ∧
    (∃ b ∈ map.blocks, b.height = L) ∧
    (∀ f ∈ extractFaces map L, f.max.x - f.min.x = L ∧ f.max.y - f.min.y = L) := by
  have anti : Std.Antisymm ((· : Int) ≤ ·) := ⟨@fun _ _ h₁ h₂ => le_antisymm h₁ h₂⟩
  rw [cubeFaceLength, List.max?_eq_some_iff (fun a => le_refl a)
    (fun a b => max_choice a b) (fun a b c => max_le_iff)] at h
  obtain ⟨hmem, hle⟩ := h
  refine ⟨?_, ?_, ?_⟩
  · intro b hb
    exact hle _ (List.mem_map_of_mem _ hb)
  · rcases List.mem_map.mp hmem with ⟨b, hb, he⟩
    exact ⟨b, hb, he⟩
  · intro f hf
    simp only [extractFaces, List.mem_flatten, List.mem_map] at hf
    obtain ⟨l1, ⟨block, hblock, rfl⟩, hf1⟩ := hf
    simp only [List.mem_flatten, List.mem_map] at hf1
    obtain ⟨l2, ⟨i, hi, rfl⟩, hf2⟩ := hf1
    simp only [List.mem_map] at hf2
    obtain ⟨j, hj, rfl⟩ := hf2
    constructor
    · simp [Point.add_x]
    · simp [Point.add_y]

/-- C3 witness: the amended theorem applied to the two-block map, whose
maximum block height is 2. -/
theorem c3_face_length_is_max_height_witness :
    cubeFaceLength c3Map = some 2 ∧
    (∀ b ∈ c3Map.blocks, b.height ≤ 2) ∧ (∃ b ∈ c3Map.blocks, b.height = 2) := by
  have h := c3_face_length_is_max_height c3Map 2 (by decide)
  exact ⟨by decide, h.1, h.2.1⟩

/-! ## Topology errors -/

/-- First direction (in scan order) of face `i` with no folded neighbor,
mirroring the read pattern of the assignment loop. -/
def findMissingIn (folded : List (List (Option Nat))) (i : Nat) : List Nat → Option Nat
  | [] => none
  | d :: ds =>
    match net2Get folded i d with
    | none => some d
    | some _ => findMissingIn folded i ds

/-- First `(face, direction)` pair (in the order of the assignment loop)
whose folded neighbor is unresolved. -/
def firstMissingGo (folded : List (List (Option Nat))) :
    List (Nat × MonkeyCubeFace) → Option (Nat × Nat)
  | [] => none
  | (i, _) :: rest =>
    match findMissingIn folded i [0, 1, 2, 3] with
    | some d => some (i, d)
    | none => firstMissingGo folded rest

theorem assignRow_error_of_missing (folded : List (List (Option Nat))) (i : Nat) :
    ∀ (ds : List Nat) (d : Nat), findMissingIn folded i ds = some d →
      assignRow folded i ds = .error (missingNeighborMsg d i) := by
  intro ds
  induction ds with
  | nil => intro d h; simp [findMissingIn] at h
  | cons a as ih =>
    intro d h
    unfold findMissingIn at h
    unfold assignRow
    cases he : net2Get folded i a with
    | none =>
      rw [he] at h
      cases h
      rfl
    | some n =>
      rw [he] at h
      rw [ih d h]
      rfl

theorem assignRow_ok_of_no_missing (folded : List (List (Option Nat))) (i : Nat) :
    ∀ ds : List Nat, findMissingIn folded i ds = none →
      ∃ row, assignRow folded i ds = .ok row := by
  intro ds
  induction ds with
  | nil => intro _; exact ⟨[], rfl⟩
  | cons a as ih =>
    intro h
    unfold findMissingIn at h
    cases he : net2Get folded i a with
    | none => rw [he] at h; cases h
    | some n =>
      rw [he] at h
      obtain ⟨row, hrow⟩ := ih h
      refine ⟨n :: row, ?_⟩
      unfold assignRow
      rw [he, hrow]
      rfl

theorem assignGo_error_of_firstMissing (folded : List (List (Option Nat))) :
    ∀ (l : List (Nat × MonkeyCubeFace)) (i d : Nat),
      firstMissingGo folded l = some (i, d) →
      assignGo folded l = .error (missingNeighborMsg d i) := by
  intro l
  induction l with
  | nil => intro i d h; simp [firstMissingGo] at h
  | cons p rest ih =>
    obtain ⟨j, f⟩ := p
    intro i d h
    unfold firstMissingGo at h
    unfold assignGo
    cases hf : findMissingIn folded j [0, 1, 2, 3] with
    | some d0 =>
      rw [hf] at h
      injection h with h1
      injection h1 with h2 h3
      subst h2; subst h3
      rw [assignRow_error_of_missing folded j _ _ hf]
      rfl
    | none =>
      rw [hf] at h
      obtain ⟨row, hrow⟩ := assignRow_ok_of_no_missing folded j _ hf
      rw [hrow]
      show assignGo folded rest >>= _ = _
      rw [ih i d h]
      rfl

/-- C5: `MonkeyCube::try_from` fails with the message `expected 6 faces,
found N` (with the observed count `N`) when extraction yields a face
count other than 6, and with the message `missing neighbor on D edge for
face I` naming the first unresolved direction and face when folding
leaves a neighbor unresolved; in both cases the result is an error, so
no cube is produced. -/
theorem c5_topology_errors :
    (∀ (map : MonkeyMap) (L : Int),
      cubeFaceLength map = some L → L ≠ 0 →
      (extractFaces map L).length ≠ 6 →
      MonkeyCube.tryFrom? map =
        some (.error ("expected 6 faces, found " ++ toString (extractFaces map L).length))) ∧
    (∀ (map : MonkeyMap) (L : Int) (i d : Nat),
      cubeFaceLength map = some L → L ≠ 0 →
      (extractFaces map L).length = 6 →
      firstMissingGo
          (foldCubeNet (buildCubeNet (extractFaces map L)) (extractFaces map L).length)
          (extractFaces map L).enum = some (i, d) →
      MonkeyCube.tryFrom? map = some (.error (missingNeighborMsg d i))) := by
  constructor
  · intro map L hL hL0 h6
    unfold MonkeyCube.tryFrom?
    rw [hL]
    dsimp only
    rw [if_neg hL0]
    simp only [if_neg h6]
  · intro map L i d hL hL0 h6 hmiss
    unfold MonkeyCube.tryFrom?
    rw [hL]
    dsimp only
    rw [if_neg hL0]
    simp only [if_pos h6]
    rw [assignGo_error_of_firstMissing _ _ _ _ hmiss]
    rfl

/-- A one-block strip map producing six faces in a single row: the fold
leaves the vertical neighbors of face 0 unresolved. -/
def c5StripMap : MonkeyMap := ⟨[⟨⟨0, 0⟩, ⟨5, 0⟩, []⟩]⟩

/-- C5 witness: the face-count error on the two-block map (one face) and
the missing-neighbor error on the six-face strip. -/
theorem c5_topology_errors_witness :
    MonkeyCube.tryFrom? c3Map = some (.error "expected 6 faces, found 1") ∧
    MonkeyCube.tryFrom? c5StripMap =
      some (.error "missing neighbor on Down edge for face 0") := by
  constructor
  · exact c5_topology_errors.1 c3Map 2 (by decide) (by decide) (by decide)
  · exact c5_topology_errors.2 c5StripMap 1 0 1 (by decide) (by decide) (by decide) (by decide)

/-! ## Neighbor-table closure on valid cube nets -/

/-! ## Rendering a net at an arbitrary face length and position -/

/-- The grid map sending a unit cell to an `L`-cell: `p` goes to
`o + L * p`, coordinatewise. -/
def Point.scale (L : Int) (o p : Point) : Point := ⟨o.x + L * p.x, o.y + L * p.y⟩

/-- A box image under the grid map (used for extracted faces, whose
`max` corner is exclusive). -/
def scaleBox (L : Int) (o : Point) (q : Point × Point) : Point × Point :=
  (Point.scale L o q.1, Point.scale L o q.2)

/-- Render a block at face length `L` and offset `o`: each unit cell of
the inclusive box `[min, max]` becomes an `L × L` cell, so the rendered
inclusive corner is `o + L * max + (L - 1)`; walls are dropped, since
the neighbor table never reads them. -/
def scaleBlock (L : Int) (o : Point) (b : MonkeyMapBlock) : MonkeyMapBlock :=
  ⟨Point.scale L o b.min,
   ⟨o.x + L * b.max.x + (L - 1), o.y + L * b.max.y + (L - 1)⟩, []⟩

/-- Render a whole net at face length `L` and offset `o`. -/
def scaleMap (L : Int) (o : Point) (m : MonkeyMap) : MonkeyMap :=
  ⟨m.blocks.map (scaleBlock L o)⟩

/-- The block boxes of a map, walls forgotten: the only block data the
cube construction reads. -/
def blockBoxes (m : MonkeyMap) : List (Point × Point) :=
  m.blocks.map (fun b => (b.min, b.max))

/-- The face boxes of a face list. -/
def faceBoxes (fs : List MonkeyCubeFace) : List (Point × Point) :=
  fs.map (fun f => (f.min, f.max))

/-- The neighbor rows of a face list: the only face data `get_neighbor`
and the closure property read. -/
def neighborRows (fs : List MonkeyCubeFace) : List (List Nat) :=
  fs.map MonkeyCubeFace.neighbors

/-- `try_from` observed through panics, errors and neighbor rows. -/
def tryFromRows? (m : MonkeyMap) : Option (Except String (List (List Nat))) :=
  (MonkeyCube.tryFrom? m).map (Except.map (fun c => neighborRows c.faces))

/-! ### Arithmetic of the grid map -/

theorem scale_le_scale {L : Int} (hL : 0 < L) (o a b : Int) :
    o + L * a ≤ o + L * b ↔ a ≤ b := by
  constructor
  · intro h
    exact le_of_mul_le_mul_left (le_of_add_le_add_left h) hL
  · intro h
    exact add_le_add_left (mul_le_mul_of_nonneg_left h hL.le) o

theorem scale_lt_scale {L : Int} (hL : 0 < L) (o a b : Int) :
    o + L * a < o + L * b ↔ a < b := by
  constructor
  · intro h
    exact lt_of_mul_lt_mul_left (lt_of_add_lt_add_left h) hL.le
  · intro h
    exact add_lt_add_left (mul_lt_mul_of_pos_left h hL) o

theorem scale_sub_one_le {L : Int} (hL : 0 < L) (o a c : Int) :
    o + L * a ≤ o + L * c - 1 ↔ a ≤ c - 1 := by
  rw [Int.le_sub_one_iff, Int.le_sub_one_iff]
  exact scale_lt_scale hL o a c

theorem scale_sub_one_lt {L : Int} (hL : 0 < L) (o c b : Int) :
    o + L * c - 1 < o + L * b ↔ c - 1 < b := by
  rw [Int.sub_one_lt_iff, Int.sub_one_lt_iff]
  exact scale_le_scale hL o c b

theorem inRange_scale {L : Int} (hL : 0 < L) (o p mn mx : Point) :
    (Point.scale L o p).inRange (Point.scale L o mn) (Point.scale L o mx) ↔
      p.inRange mn mx := by
  simp only [Point.inRange, Point.scale]
  rw [scale_le_scale hL, scale_le_scale hL, scale_lt_scale hL, scale_lt_scale hL]

theorem inRange_scale_left_probe {L : Int} (hL : 0 < L) (o p mn mx : Point) :
    Point.inRange ⟨(Point.scale L o p).x - 1, (Point.scale L o p).y⟩
        (Point.scale L o mn) (Point.scale L o mx) ↔
      Point.inRange ⟨p.x - 1, p.y⟩ mn mx := by
  simp only [Point.inRange, Point.scale]
  rw [scale_sub_one_le hL, scale_sub_one_lt hL, scale_le_scale hL, scale_lt_scale hL]

theorem inRange_scale_up_probe {L : Int} (hL : 0 < L) (o p mn mx : Point) :
    Point.inRange ⟨(Point.scale L o p).x, (Point.scale L o p).y - 1⟩
        (Point.scale L o mn) (Point.scale L o mx) ↔
      Point.inRange ⟨p.x, p.y - 1⟩ mn mx := by
  simp only [Point.inRange, Point.scale]
  rw [scale_le_scale hL, scale_lt_scale hL, scale_sub_one_le hL, scale_sub_one_lt hL]

/-! ### Scaling the face length computation -/

theorem max?_scale {L : Int} (hL : 0 < L) (l : List Int) :
    (l.map (fun h => L * h)).max? = l.max?.map (fun h => L * h) := by
  induction l with
  | nil => rfl
  | cons a t ih =>
    simp only [List.map_cons, List.max?_cons, Option.map_some]
    rw [ih]
    cases t.max? with
    | none => rfl
    | some m =>
      show some (max (L * a) (L * m)) = some (L * max a m)
      rw [mul_max_of_nonneg a m hL.le]

theorem tdiv_scale {L : Int} (hL : 0 < L) (a b : Int) :
    (L * a).tdiv (L * b) = a.tdiv b := by
  have key : ∀ x y : Int, 0 ≤ x → 0 ≤ y → (L * x).tdiv (L * y) = x.tdiv y := by
    intro x y hx hy
    rw [Int.tdiv_eq_ediv (by positivity) (by positivity), Int.tdiv_eq_ediv hx hy,
      Int.mul_ediv_mul_of_pos _ _ hL]
  rcases le_or_lt 0 a with ha | ha <;> rcases le_or_lt 0 b with hb | hb
  · exact key a b ha hb
  · rw [show L * b = -(L * -b) by ring, Int.tdiv_neg, key a (-b) ha (by omega),
      ← Int.tdiv_neg, Int.neg_neg]
  · rw [show L * a = -(L * -a) by ring, Int.neg_tdiv, key (-a) b (by omega) hb,
      ← Int.neg_tdiv, Int.neg_neg]
  · rw [show L * a = -(L * -a) by ring, show L * b = -(L * -b) by ring,
      Int.neg_tdiv, Int.tdiv_neg, key (-a) (-b) (by omega) (by omega),
      ← Int.tdiv_neg, ← Int.neg_tdiv, Int.neg_neg, Int.neg_neg]

theorem heights_eq_of_boxes_eq {a b : MonkeyMap} (h : blockBoxes a = blockBoxes b) :
    a.blocks.map MonkeyMapBlock.height = b.blocks.map MonkeyMapBlock.height := by
  have e : ∀ m : MonkeyMap, m.blocks.map MonkeyMapBlock.height
      = (blockBoxes m).map (fun q => q.2.y - q.1.y + 1) := by
    intro m
    rw [blockBoxes, List.map_map]
    rfl
  rw [e, e, h]

theorem scaleBlock_height (L : Int) (o : Point) (b : MonkeyMapBlock) :
    (scaleBlock L o b).height = L * b.height := by
  simp only [scaleBlock, MonkeyMapBlock.height, Point.scale]
  ring

theorem cubeFaceLength_scale {L : Int} (hL : 0 < L) (o : Point) (m : MonkeyMap) :
    cubeFaceLength (scaleMap L o m) = (cubeFaceLength m).map (fun h => L * h) := by
  unfold cubeFaceLength scaleMap
  show ((m.blocks.map (scaleBlock L o)).map MonkeyMapBlock.height).max? = _
  rw [List.map_map,
    show MonkeyMapBlock.height ∘ scaleBlock L o = (fun b => L * b.height) from
      funext fun b => scaleBlock_height L o b,
    show m.blocks.map (fun b => L * b.height)
        = (m.blocks.map MonkeyMapBlock.height).map (fun h => L * h) by
      rw [List.map_map]; rfl,
    max?_scale hL]

/-! ### Scaling the face extraction -/

/-- The boxes of the faces the extractor slices out of the given block
boxes — `extractFaces` with the wall bookkeeping forgotten. -/
def extractBoxes (boxes : List (Point × Point)) (X : Int) : List (Point × Point) :=
  (boxes.map (fun q =>
    let w := q.2.x - q.1.x + 1
    let h := q.2.y - q.1.y + 1
    let xB := Int.tdiv w X
    let yB := Int.tdiv h X
    let boxesAt := fun (i : Nat) =>
      (List.range yB.toNat).map (fun j =>
        let mn : Point := ⟨q.1.x + (i : Int) * X, q.1.y + (j : Int) * X⟩
        (mn, mn + ⟨X, X⟩))
    ((List.range xB.toNat).map boxesAt).flatten)).flatten

/-- The extracted face boxes depend on the blocks only through their
boxes. -/
theorem faceBoxes_extract (m : MonkeyMap) (X : Int) :
    faceBoxes (extractFaces m X) = extractBoxes (blockBoxes m) X := by
  unfold faceBoxes extractFaces extractBoxes blockBoxes
  rw [List.map_flatten, List.map_map, List.map_map]
  apply congrArg List.flatten
  congr 1
  funext b
  simp only [Function.comp, MonkeyMapBlock.width, MonkeyMapBlock.height]
  rw [List.map_flatten, List.map_map]
  apply congrArg List.flatten
  congr 1
  funext i
  simp only [Function.comp]
  rw [List.map_map]
  congr 1

/-- Scaling the block boxes by the grid map and the slicing length by
`L` scales every extracted face box by the grid map. -/
theorem extractBoxes_scale {L : Int} (hL : 0 < L) (o : Point)
    (boxes : List (Point × Point)) (X : Int) :
    extractBoxes (boxes.map (fun q => (Point.scale L o q.1,
        (⟨o.x + L * q.2.x + (L - 1), o.y + L * q.2.y + (L - 1)⟩ : Point)))) (L * X) =
      (extractBoxes boxes X).map (scaleBox L o) := by
  unfold extractBoxes
  rw [List.map_map, List.map_flatten, List.map_map]
  apply congrArg List.flatten
  apply List.map_congr_left
  intro q _
  simp only [Function.comp, Point.scale]
  rw [show o.x + L * q.2.x + (L - 1) - (o.x + L * q.1.x) + 1
      = L * (q.2.x - q.1.x + 1) by ring]
  rw [show o.y + L * q.2.y + (L - 1) - (o.y + L * q.1.y) + 1
      = L * (q.2.y - q.1.y + 1) by ring]
  rw [tdiv_scale hL, tdiv_scale hL]
  rw [List.map_flatten, List.map_map]
  apply congrArg List.flatten
  congr 1
  funext i
  simp only [Function.comp]
  rw [List.map_map]
  congr 1
  funext j
  show ((⟨o.x + L * q.1.x + (i : Int) * (L * X), o.y + L * q.1.y + j * (L * X)⟩ : Point),
      (⟨o.x + L * q.1.x + (i : Int) * (L * X), o.y + L * q.1.y + j * (L * X)⟩ : Point)
        + ⟨L * X, L * X⟩)
    = (Point.scale L o ⟨q.1.x + (i : Int) * X, q.1.y + j * X⟩,
       Point.scale L o (⟨q.1.x + (i : Int) * X, q.1.y + j * X⟩ + ⟨X, X⟩))
  have ext2 : ∀ a b : Point, a.x = b.x → a.y = b.y → a = b := by
    intro a b h1 h2
    cases a
    cases b
    cases h1
    cases h2
    rfl
  simp only [Prod.mk.injEq]
  constructor
  · apply ext2 <;> simp only [Point.scale] <;> ring
  · apply ext2 <;> simp only [Point.add_x, Point.add_y, Point.scale] <;> ring

/-! ### Scaling the net adjacency builder -/

theorem foldl_congr_mem {α β : Type} {f g : β → α → β} :
    ∀ l : List α, (∀ a ∈ l, ∀ x, f x a = g x a) → ∀ b, l.foldl f b = l.foldl g b := by
  intro l
  induction l with
  | nil => intro _ _; rfl
  | cons a t ih =>
    intro h b
    simp only [List.foldl_cons]
    rw [h a (List.mem_cons_self a t) b]
    exact ih (fun x hx y => h x (List.mem_cons_of_mem a hx) y) (g b a)

theorem faceBoxes_length {fs cs : List MonkeyCubeFace} {L : Int} {o : Point}
    (hbox : faceBoxes fs = (faceBoxes cs).map (scaleBox L o)) :
    fs.length = cs.length := by
  have h := congrArg List.length hbox
  rw [faceBoxes, faceBoxes, List.length_map, List.length_map, List.length_map] at h
  exact h

theorem faceBox_getD {fs cs : List MonkeyCubeFace} {L : Int} {o : Point}
    (hbox : faceBoxes fs = (faceBoxes cs).map (scaleBox L o))
    (i : Nat) (hi : i < cs.length) :
    (fs.getD i default).min = Point.scale L o (cs.getD i default).min ∧
      (fs.getD i default).max = Point.scale L o (cs.getD i default).max := by
  have hlen : fs.length = cs.length := faceBoxes_length hbox
  have hif : i < fs.length := by omega
  have h1 : (faceBoxes fs)[i]? = ((faceBoxes cs).map (scaleBox L o))[i]? := by rw [hbox]
  rw [faceBoxes, faceBoxes, List.getElem?_map, List.getElem?_map, List.getElem?_map,
    List.getElem?_eq_getElem hif, List.getElem?_eq_getElem hi] at h1
  simp only [Option.map_some'] at h1
  have h2 : (fs[i].min, fs[i].max) = scaleBox L o (cs[i].min, cs[i].max) :=
    Option.some.inj h1
  rw [scaleBox] at h2
  have hget : fs.getD i default = fs[i] := by
    simp [List.getD_eq_getElem?_getD, List.getElem?_eq_getElem hif]
  have hget2 : cs.getD i default = cs[i] := by
    simp [List.getD_eq_getElem?_getD, List.getElem?_eq_getElem hi]
  rw [hget, hget2]
  exact ⟨congrArg Prod.fst h2, congrArg Prod.snd h2⟩

theorem findIdx?_inRange_scale {L : Int} (o : Point)
    {fs cs : List MonkeyCubeFace}
    (hbox : faceBoxes fs = (faceBoxes cs).map (scaleBox L o))
    (P Q : Point)
    (hPQ : ∀ mn mx : Point,
      Point.inRange P (Point.scale L o mn) (Point.scale L o mx) ↔ Point.inRange Q mn mx) :
    fs.findIdx? (fun g => decide (P.inRange g.min g.max)) =
      cs.findIdx? (fun g => decide (Q.inRange g.min g.max)) := by
  have h1 : fs.findIdx? (fun g => decide (P.inRange g.min g.max)) =
      (faceBoxes fs).findIdx? (fun b => decide (P.inRange b.1 b.2)) := by
    rw [faceBoxes, List.findIdx?_map]
    rfl
  have h2 : cs.findIdx? (fun g => decide (Q.inRange g.min g.max)) =
      (faceBoxes cs).findIdx? (fun b => decide (Q.inRange b.1 b.2)) := by
    rw [faceBoxes, List.findIdx?_map]
    rfl
  rw [h1, h2, hbox, List.findIdx?_map]
  congr 1
  funext b
  simp only [Function.comp, scaleBox]
  rw [decide_eq_decide]
  exact hPQ b.1 b.2

theorem buildCubeNet_scale {L : Int} (hL : 0 < L) (o : Point)
    {fs cs : List MonkeyCubeFace}
    (hbox : faceBoxes fs = (faceBoxes cs).map (scaleBox L o)) :
    buildCubeNet fs = buildCubeNet cs := by
  have hlen : fs.length = cs.length := faceBoxes_length hbox
  unfold buildCubeNet
  rw [hlen]
  apply foldl_congr_mem
  intro i hi net
  rw [List.mem_range] at hi
  obtain ⟨hmin, hmax⟩ := faceBox_getD hbox i hi
  dsimp only
  rw [hmin, hmax]
  rw [findIdx?_inRange_scale o hbox
    ⟨(Point.scale L o (cs.getD i default).max).x, (Point.scale L o (cs.getD i default).min).y⟩
    ⟨(cs.getD i default).max.x, (cs.getD i default).min.y⟩
    (fun mn mx =>
      inRange_scale hL o ⟨(cs.getD i default).max.x, (cs.getD i default).min.y⟩ mn mx)]
  rw [findIdx?_inRange_scale o hbox
    ⟨(Point.scale L o (cs.getD i default).min).x - 1, (Point.scale L o (cs.getD i default).min).y⟩
    ⟨(cs.getD i default).min.x - 1, (cs.getD i default).min.y⟩
    (fun mn mx => inRange_scale_left_probe hL o (cs.getD i default).min mn mx)]
  rw [findIdx?_inRange_scale o hbox
    ⟨(Point.scale L o (cs.getD i default).min).x, (Point.scale L o (cs.getD i default).min).y - 1⟩
    ⟨(cs.getD i default).min.x, (cs.getD i default).min.y - 1⟩
    (fun mn mx => inRange_scale_up_probe hL o (cs.getD i default).min mn mx)]
  rw [findIdx?_inRange_scale o hbox
    ⟨(Point.scale L o (cs.getD i default).min).x, (Point.scale L o (cs.getD i default).max).y⟩
    ⟨(cs.getD i default).min.x, (cs.getD i default).max.y⟩
    (fun mn mx =>
      inRange_scale hL o ⟨(cs.getD i default).min.x, (cs.getD i default).max.y⟩ mn mx)]

/-! ### The assignment loop through neighbor rows -/

theorem assignGo_rows_congr (folded : List (List (Option Nat))) :
    ∀ l l' : List (Nat × MonkeyCubeFace),
      l.map Prod.fst = l'.map Prod.fst →
      Except.map neighborRows (assignGo folded l) =
        Except.map neighborRows (assignGo folded l') := by
  intro l
  induction l with
  | nil =>
    intro l' h
    cases l' with
    | nil => rfl
    | cons p t => simp at h
  | cons p t ih =>
    intro l' h
    cases l' with
    | nil => simp at h
    | cons p' t' =>
      obtain ⟨i, f⟩ := p
      obtain ⟨i', f'⟩ := p'
      simp only [List.map_cons] at h
      have hi : i = i' := by
        have := List.head_eq_of_cons_eq h
        exact this
      have ht : t.map Prod.fst = t'.map Prod.fst := List.tail_eq_of_cons_eq h
      subst hi
      unfold assignGo
      cases hr : assignRow folded i [0, 1, 2, 3] with
      | error e => rfl
      | ok row =>
        have hrec := ih t' ht
        cases h1 : assignGo folded t with
        | error e =>
          rw [h1] at hrec
          cases h2 : assignGo folded t' with
          | error e2 =>
            rw [h2] at hrec
            have he : e = e2 := by
              have := hrec
              simp only [Except.map] at this
              exact Except.error.inj this
            rw [he]
            rfl
          | ok others2 =>
            rw [h2] at hrec
            simp only [Except.map] at hrec
            cases hrec
        | ok others =>
          rw [h1] at hrec
          cases h2 : assignGo folded t' with
          | error e2 =>
            rw [h2] at hrec
            simp only [Except.map] at hrec
            cases hrec
          | ok others2 =>
            rw [h2] at hrec
            simp only [Except.map] at hrec
            have he : neighborRows others = neighborRows others2 := Except.ok.inj hrec
            show Except.ok (row :: neighborRows others) = Except.ok (row :: neighborRows others2)
            rw [he]

/-- Mapping the final cube construction back to its neighbor rows. -/
theorem except_map_rows_mk (X : Int) (e : Except String (List MonkeyCubeFace)) :
    Except.map (fun c => neighborRows c.faces)
        (e >>= fun r => Except.ok (⟨X, r⟩ : MonkeyCube)) =
      Except.map neighborRows e := by
  cases e <;> rfl

/-! ### The invariance of the neighbor table -/

/-- `try_from` observed through panics, errors and neighbor rows is
invariant under rendering the block layout at a different face length
and position: any map whose block boxes are the grid image (positive
`L`, arbitrary offset, arbitrary walls) of another map's layout produces
the same outcome and the same neighbor rows. -/
theorem tryFromRows_scale {L : Int} (hL : 0 < L) (o : Point) (m mh : MonkeyMap)
    (hbox : blockBoxes m = blockBoxes (scaleMap L o mh)) :
    tryFromRows? m = tryFromRows? mh := by
  have hheights : m.blocks.map MonkeyMapBlock.height
      = (mh.blocks.map MonkeyMapBlock.height).map (fun h => L * h) := by
    rw [heights_eq_of_boxes_eq hbox]
    show (mh.blocks.map (scaleBlock L o)).map MonkeyMapBlock.height = _
    rw [List.map_map, List.map_map]
    apply List.map_congr_left
    intro b _
    exact scaleBlock_height L o b
  have hcfl : cubeFaceLength m = (cubeFaceLength mh).map (fun h => L * h) := by
    rw [cubeFaceLength, cubeFaceLength, hheights, max?_scale hL]
  cases hc : cubeFaceLength mh with
  | none =>
    have hm : cubeFaceLength m = none := by rw [hcfl, hc]; rfl
    rw [tryFromRows?, tryFromRows?, MonkeyCube.tryFrom?, MonkeyCube.tryFrom?, hm, hc]
  | some Lc =>
    have hm : cubeFaceLength m = some (L * Lc) := by rw [hcfl, hc]; rfl
    rw [tryFromRows?, tryFromRows?, MonkeyCube.tryFrom?, MonkeyCube.tryFrom?, hm, hc]
    dsimp only
    by_cases hz : Lc = 0
    · subst hz
      rw [if_pos (mul_zero L), if_pos rfl]
    · have hz' : ¬ L * Lc = 0 := by
        intro h
        rcases mul_eq_zero.mp h with h | h
        · omega
        · exact hz h
      rw [if_neg hz', if_neg hz]
      have hbb : blockBoxes (scaleMap L o mh) =
          (blockBoxes mh).map (fun q => (Point.scale L o q.1,
            (⟨o.x + L * q.2.x + (L - 1), o.y + L * q.2.y + (L - 1)⟩ : Point))) := by
        rw [blockBoxes, blockBoxes, scaleMap]
        show (mh.blocks.map (scaleBlock L o)).map _ = _
        rw [List.map_map, List.map_map]
        rfl
      have hfb : faceBoxes (extractFaces m (L * Lc))
          = (faceBoxes (extractFaces mh Lc)).map (scaleBox L o) := by
        rw [faceBoxes_extract, faceBoxes_extract, hbox, hbb, extractBoxes_scale hL]
      have hflen : (extractFaces m (L * Lc)).length = (extractFaces mh Lc).length :=
        faceBoxes_length hfb
      simp only [Option.map_some']
      apply congrArg some
      rw [hflen]
      by_cases h6 : (extractFaces mh Lc).length = 6
      · rw [if_pos h6, if_pos h6]
        have hnet : buildCubeNet (extractFaces m (L * Lc))
            = buildCubeNet (extractFaces mh Lc) := buildCubeNet_scale hL o hfb
        rw [hnet, except_map_rows_mk, except_map_rows_mk]
        apply assignGo_rows_congr
        rw [List.enum_map_fst, List.enum_map_fst, hflen]
      · rw [if_neg h6, if_neg h6]

/-! ### Transfer along equal neighbor rows -/

theorem rowAt_eq_of_rows_eq {c c0 : MonkeyCube}
    (h : neighborRows c.faces = neighborRows c0.faces) (k : Nat) :
    (c.faces.getD k default).neighbors = (c0.faces.getD k default).neighbors := by
  have hlen : c.faces.length = c0.faces.length := by
    have h2 := congrArg List.length h
    rw [neighborRows, neighborRows, List.length_map, List.length_map] at h2
    exact h2
  by_cases hk : k < c0.faces.length
  · have hk' : k < c.faces.length := by omega
    have h1 : (neighborRows c.faces)[k]? = (neighborRows c0.faces)[k]? := by rw [h]
    rw [neighborRows, neighborRows, List.getElem?_map, List.getElem?_map,
      List.getElem?_eq_getElem hk', List.getElem?_eq_getElem hk] at h1
    simp only [Option.map_some'] at h1
    rw [show c.faces.getD k default = c.faces[k] by
          simp [List.getD_eq_getElem?_getD, List.getElem?_eq_getElem hk'],
      show c0.faces.getD k default = c0.faces[k] by
        simp [List.getD_eq_getElem?_getD, List.getElem?_eq_getElem hk]]
    exact Option.some.inj h1
  · have hk' : ¬ k < c.faces.length := by omega
    rw [show c.faces.getD k default = default by
          simp [List.getD_eq_getElem?_getD, List.getElem?_eq_none (by omega : c.faces.length ≤ k)],
      show c0.faces.getD k default = default by
        simp [List.getD_eq_getElem?_getD,
          List.getElem?_eq_none (by omega : c0.faces.length ≤ k)]]

theorem getNeighbor_eq_of_rows_eq {c c0 : MonkeyCube}
    (h : neighborRows c.faces = neighborRows c0.faces) (i : Nat) (d : Direction) :
    c.getNeighbor i d = c0.getNeighbor i d := by
  unfold MonkeyCube.getNeighbor
  rw [rowAt_eq_of_rows_eq h i]
  dsimp only
  rw [rowAt_eq_of_rows_eq h ((c0.faces.getD i default).neighbors.getD d.index 0)]

theorem tryFrom_ok_transfer {m mh : MonkeyMap} {c : MonkeyCube}
    (hrows : tryFromRows? m = tryFromRows? mh)
    (hok : MonkeyCube.tryFrom? m = some (.ok c)) :
    ∃ c0, MonkeyCube.tryFrom? mh = some (.ok c0) ∧
      neighborRows c.faces = neighborRows c0.faces := by
  rw [tryFromRows?, tryFromRows?, hok] at hrows
  cases h2 : MonkeyCube.tryFrom? mh with
  | none =>
    rw [h2] at hrows
    simp at hrows
  | some e =>
    rw [h2] at hrows
    cases e with
    | error s =>
      simp only [Option.map_some', Except.map] at hrows
      simp at hrows
    | ok c0 =>
      refine ⟨c0, rfl, ?_⟩
      simp only [Option.map_some', Except.map] at hrows
      exact Except.ok.inj (Option.some.inj hrows)

/-- All 64 fixed orientations of the 11 hexomino cube nets, rendered
with face length 1 at the origin, as the block lists the scanner
produces for them (consecutive rows of equal span share a block). -/
def validCubeNets : List MonkeyMap :=
  [
   ⟨[⟨⟨0, 0⟩, ⟨0, 0⟩, []⟩, ⟨⟨0, 1⟩, ⟨3, 1⟩, []⟩, ⟨⟨0, 2⟩, ⟨0, 2⟩, []⟩]⟩,
   ⟨[⟨⟨0, 0⟩, ⟨0, 1⟩, []⟩, ⟨⟨0, 2⟩, ⟨1, 2⟩, []⟩, ⟨⟨1, 3⟩, ⟨1, 4⟩, []⟩]⟩,
   ⟨[⟨⟨0, 0⟩, ⟨0, 0⟩, []⟩, ⟨⟨0, 1⟩, ⟨2, 1⟩, []⟩, ⟨⟨1, 2⟩, ⟨1, 3⟩, []⟩]⟩,
   ⟨[⟨⟨0, 0⟩, ⟨0, 0⟩, []⟩, ⟨⟨0, 1⟩, ⟨1, 1⟩, []⟩, ⟨⟨1, 2⟩, ⟨2, 2⟩, []⟩, ⟨⟨1, 3⟩, ⟨1, 3⟩, []⟩]⟩,
   ⟨[⟨⟨0, 0⟩, ⟨0, 0⟩, []⟩, ⟨⟨0, 1⟩, ⟨1, 1⟩, []⟩, ⟨⟨1, 2⟩, ⟨1, 2⟩, []⟩, ⟨⟨1, 3⟩, ⟨2, 3⟩, []⟩]⟩,
   ⟨[⟨⟨0, 0⟩, ⟨0, 0⟩, []⟩, ⟨⟨0, 1⟩, ⟨3, 1⟩, []⟩, ⟨⟨1, 2⟩, ⟨1, 2⟩, []⟩]⟩,
   ⟨[⟨⟨0, 0⟩, ⟨0, 0⟩, []⟩, ⟨⟨0, 1⟩, ⟨1, 1⟩, []⟩, ⟨⟨1, 2⟩, ⟨2, 2⟩, []⟩, ⟨⟨2, 3⟩, ⟨2, 3⟩, []⟩]⟩,
   ⟨[⟨⟨0, 0⟩, ⟨0, 0⟩, []⟩, ⟨⟨0, 1⟩, ⟨3, 1⟩, []⟩, ⟨⟨2, 2⟩, ⟨2, 2⟩, []⟩]⟩,
   ⟨[⟨⟨0, 0⟩, ⟨0, 0⟩, []⟩, ⟨⟨0, 1⟩, ⟨2, 1⟩, []⟩, ⟨⟨2, 2⟩, ⟨3, 2⟩, []⟩]⟩,
   ⟨[⟨⟨0, 0⟩, ⟨0, 0⟩, []⟩, ⟨⟨0, 1⟩, ⟨3, 1⟩, []⟩, ⟨⟨3, 2⟩, ⟨3, 2⟩, []⟩]⟩,
   ⟨[⟨⟨0, 0⟩, ⟨2, 0⟩, []⟩, ⟨⟨1, 1⟩, ⟨1, 3⟩, []⟩]⟩,
   ⟨[⟨⟨0, 0⟩, ⟨1, 0⟩, []⟩, ⟨⟨1, 1⟩, ⟨2, 1⟩, []⟩, ⟨⟨1, 2⟩, ⟨1, 3⟩, []⟩]⟩,
   ⟨[⟨⟨0, 0⟩, ⟨1, 0⟩, []⟩, ⟨⟨1, 1⟩, ⟨1, 1⟩, []⟩, ⟨⟨1, 2⟩, ⟨2, 2⟩, []⟩, ⟨⟨1, 3⟩, ⟨1, 3⟩, []⟩]⟩,
   ⟨[⟨⟨0, 0⟩, ⟨1, 0⟩, []⟩, ⟨⟨1, 1⟩, ⟨1, 2⟩, []⟩, ⟨⟨1, 3⟩, ⟨2, 3⟩, []⟩]⟩,
   ⟨[⟨⟨0, 0⟩, ⟨1, 0⟩, []⟩, ⟨⟨1, 1⟩, ⟨3, 1⟩, []⟩, ⟨⟨1, 2⟩, ⟨1, 2⟩, []⟩]⟩,
   ⟨[⟨⟨0, 0⟩, ⟨1, 0⟩, []⟩, ⟨⟨1, 1⟩, ⟨1, 1⟩, []⟩, ⟨⟨1, 2⟩, ⟨2, 2⟩, []⟩, ⟨⟨2, 3⟩, ⟨2, 3⟩, []⟩]⟩,
   ⟨[⟨⟨0, 0⟩, ⟨1, 0⟩, []⟩, ⟨⟨1, 1⟩, ⟨3, 1⟩, []⟩, ⟨⟨2, 2⟩, ⟨2, 2⟩, []⟩]⟩,
   ⟨[⟨⟨0, 0⟩, ⟨1, 0⟩, []⟩, ⟨⟨1, 1⟩, ⟨2, 1⟩, []⟩, ⟨⟨2, 2⟩, ⟨3, 2⟩, []⟩]⟩,
   ⟨[⟨⟨0, 0⟩, ⟨1, 0⟩, []⟩, ⟨⟨1, 1⟩, ⟨3, 1⟩, []⟩, ⟨⟨3, 2⟩, ⟨3, 2⟩, []⟩]⟩,
   ⟨[⟨⟨0, 0⟩, ⟨2, 0⟩, []⟩, ⟨⟨2, 1⟩, ⟨4, 1⟩, []⟩]⟩,
   ⟨[⟨⟨1, 0⟩, ⟨1, 0⟩, []⟩, ⟨⟨0, 1⟩, ⟨3, 1⟩, []⟩, ⟨⟨0, 2⟩, ⟨0, 2⟩, []⟩]⟩,
   ⟨[⟨⟨2, 0⟩, ⟨3, 0⟩, []⟩, ⟨⟨0, 1⟩, ⟨2, 1⟩, []⟩, ⟨⟨0, 2⟩, ⟨0, 2⟩, []⟩]⟩,
   ⟨[⟨⟨2, 0⟩, ⟨2, 0⟩, []⟩, ⟨⟨0, 1⟩, ⟨3, 1⟩, []⟩, ⟨⟨0, 2⟩, ⟨0, 2⟩, []⟩]⟩,
   ⟨[⟨⟨3, 0⟩, ⟨3, 0⟩, []⟩, ⟨⟨0, 1⟩, ⟨3, 1⟩, []⟩, ⟨⟨0, 2⟩, ⟨0, 2⟩, []⟩]⟩,
   ⟨[⟨⟨1, 0⟩, ⟨2, 0⟩, []⟩, ⟨⟨0, 1⟩, ⟨1, 1⟩, []⟩, ⟨⟨1, 2⟩, ⟨1, 3⟩, []⟩]⟩,
   ⟨[⟨⟨1, 0⟩, ⟨1, 0⟩, []⟩, ⟨⟨0, 1⟩, ⟨2, 1⟩, []⟩, ⟨⟨1, 2⟩, ⟨1, 3⟩, []⟩]⟩,
   ⟨[⟨⟨1, 0⟩, ⟨1, 0⟩, []⟩, ⟨⟨0, 1⟩, ⟨1, 1⟩, []⟩, ⟨⟨1, 2⟩, ⟨2, 2⟩, []⟩, ⟨⟨1, 3⟩, ⟨1, 3⟩, []⟩]⟩,
   ⟨[⟨⟨1, 0⟩, ⟨1, 0⟩, []⟩, ⟨⟨0, 1⟩, ⟨1, 1⟩, []⟩, ⟨⟨1, 2⟩, ⟨1, 2⟩, []⟩, ⟨⟨1, 3⟩, ⟨2, 3⟩, []⟩]⟩,
   ⟨[⟨⟨1, 0⟩, ⟨1, 0⟩, []⟩, ⟨⟨0, 1⟩, ⟨3, 1⟩, []⟩, ⟨⟨1, 2⟩, ⟨1, 2⟩, []⟩]⟩,
   ⟨[⟨⟨1, 0⟩, ⟨1, 0⟩, []⟩, ⟨⟨0, 1⟩, ⟨1, 1⟩, []⟩, ⟨⟨1, 2⟩, ⟨2, 2⟩, []⟩, ⟨⟨2, 3⟩, ⟨2, 3⟩, []⟩]⟩,
   ⟨[⟨⟨1, 0⟩, ⟨1, 0⟩, []⟩, ⟨⟨0, 1⟩, ⟨3, 1⟩, []⟩, ⟨⟨2, 2⟩, ⟨2, 2⟩, []⟩]⟩,
   ⟨[⟨⟨1, 0⟩, ⟨1, 0⟩, []⟩, ⟨⟨0, 1⟩, ⟨2, 1⟩, []⟩, ⟨⟨2, 2⟩, ⟨3, 2⟩, []⟩]⟩,
   ⟨[⟨⟨1, 0⟩, ⟨1, 0⟩, []⟩, ⟨⟨0, 1⟩, ⟨3, 1⟩, []⟩, ⟨⟨3, 2⟩, ⟨3, 2⟩, []⟩]⟩,
   ⟨[⟨⟨2, 0⟩, ⟨2, 0⟩, []⟩, ⟨⟨0, 1⟩, ⟨2, 1⟩, []⟩, ⟨⟨1, 2⟩, ⟨1, 3⟩, []⟩]⟩,
   ⟨[⟨⟨2, 0⟩, ⟨3, 0⟩, []⟩, ⟨⟨0, 1⟩, ⟨2, 1⟩, []⟩, ⟨⟨1, 2⟩, ⟨1, 2⟩, []⟩]⟩,
   ⟨[⟨⟨2, 0⟩, ⟨2, 0⟩, []⟩, ⟨⟨0, 1⟩, ⟨3, 1⟩, []⟩, ⟨⟨1, 2⟩, ⟨1, 2⟩, []⟩]⟩,
   ⟨[⟨⟨3, 0⟩, ⟨3, 0⟩, []⟩, ⟨⟨0, 1⟩, ⟨3, 1⟩, []⟩, ⟨⟨1, 2⟩, ⟨1, 2⟩, []⟩]⟩,
   ⟨[⟨⟨2, 0⟩, ⟨3, 0⟩, []⟩, ⟨⟨0, 1⟩, ⟨2, 1⟩, []⟩, ⟨⟨2, 2⟩, ⟨2, 2⟩, []⟩]⟩,
   ⟨[⟨⟨2, 0⟩, ⟨2, 0⟩, []⟩, ⟨⟨0, 1⟩, ⟨3, 1⟩, []⟩, ⟨⟨2, 2⟩, ⟨2, 2⟩, []⟩]⟩,
   ⟨[⟨⟨2, 0⟩, ⟨2, 0⟩, []⟩, ⟨⟨0, 1⟩, ⟨2, 1⟩, []⟩, ⟨⟨2, 2⟩, ⟨3, 2⟩, []⟩]⟩,
   ⟨[⟨⟨2, 0⟩, ⟨4, 0⟩, []⟩, ⟨⟨0, 1⟩, ⟨2, 1⟩, []⟩]⟩,
   ⟨[⟨⟨2, 0⟩, ⟨2, 0⟩, []⟩, ⟨⟨0, 1⟩, ⟨3, 1⟩, []⟩, ⟨⟨3, 2⟩, ⟨3, 2⟩, []⟩]⟩,
   ⟨[⟨⟨3, 0⟩, ⟨3, 0⟩, []⟩, ⟨⟨0, 1⟩, ⟨3, 1⟩, []⟩, ⟨⟨2, 2⟩, ⟨2, 2⟩, []⟩]⟩,
   ⟨[⟨⟨3, 0⟩, ⟨3, 0⟩, []⟩, ⟨⟨0, 1⟩, ⟨3, 1⟩, []⟩, ⟨⟨3, 2⟩, ⟨3, 2⟩, []⟩]⟩,
   ⟨[⟨⟨1, 0⟩, ⟨1, 1⟩, []⟩, ⟨⟨0, 2⟩, ⟨1, 2⟩, []⟩, ⟨⟨0, 3⟩, ⟨0, 4⟩, []⟩]⟩,
   ⟨[⟨⟨1, 0⟩, ⟨2, 0⟩, []⟩, ⟨⟨1, 1⟩, ⟨1, 1⟩, []⟩, ⟨⟨0, 2⟩, ⟨1, 2⟩, []⟩, ⟨⟨0, 3⟩, ⟨0, 3⟩, []⟩]⟩,
   ⟨[⟨⟨1, 0⟩, ⟨1, 0⟩, []⟩, ⟨⟨1, 1⟩, ⟨2, 1⟩, []⟩, ⟨⟨0, 2⟩, ⟨1, 2⟩, []⟩, ⟨⟨0, 3⟩, ⟨0, 3⟩, []⟩]⟩,
   ⟨[⟨⟨1, 0⟩, ⟨1, 1⟩, []⟩, ⟨⟨0, 2⟩, ⟨2, 2⟩, []⟩, ⟨⟨0, 3⟩, ⟨0, 3⟩, []⟩]⟩,
   ⟨[⟨⟨2, 0⟩, ⟨2, 0⟩, []⟩, ⟨⟨1, 1⟩, ⟨2, 1⟩, []⟩, ⟨⟨0, 2⟩, ⟨1, 2⟩, []⟩, ⟨⟨0, 3⟩, ⟨0, 3⟩, []⟩]⟩,
   ⟨[⟨⟨1, 0⟩, ⟨2, 0⟩, []⟩, ⟨⟨1, 1⟩, ⟨1, 1⟩, []⟩, ⟨⟨0, 2⟩, ⟨1, 2⟩, []⟩, ⟨⟨1, 3⟩, ⟨1, 3⟩, []⟩]⟩,
   ⟨[⟨⟨1, 0⟩, ⟨1, 0⟩, []⟩, ⟨⟨1, 1⟩, ⟨2, 1⟩, []⟩, ⟨⟨0, 2⟩, ⟨1, 2⟩, []⟩, ⟨⟨1, 3⟩, ⟨1, 3⟩, []⟩]⟩,
   ⟨[⟨⟨1, 0⟩, ⟨1, 1⟩, []⟩, ⟨⟨0, 2⟩, ⟨2, 2⟩, []⟩, ⟨⟨1, 3⟩, ⟨1, 3⟩, []⟩]⟩,
   ⟨[⟨⟨1, 0⟩, ⟨1, 1⟩, []⟩, ⟨⟨0, 2⟩, ⟨1, 2⟩, []⟩, ⟨⟨1, 3⟩, ⟨2, 3⟩, []⟩]⟩,
   ⟨[⟨⟨1, 0⟩, ⟨1, 0⟩, []⟩, ⟨⟨1, 1⟩, ⟨3, 1⟩, []⟩, ⟨⟨0, 2⟩, ⟨1, 2⟩, []⟩]⟩,
   ⟨[⟨⟨1, 0⟩, ⟨1, 1⟩, []⟩, ⟨⟨0, 2⟩, ⟨2, 2⟩, []⟩, ⟨⟨2, 3⟩, ⟨2, 3⟩, []⟩]⟩,
   ⟨[⟨⟨2, 0⟩, ⟨2, 0⟩, []⟩, ⟨⟨1, 1⟩, ⟨2, 1⟩, []⟩, ⟨⟨0, 2⟩, ⟨1, 2⟩, []⟩, ⟨⟨1, 3⟩, ⟨1, 3⟩, []⟩]⟩,
   ⟨[⟨⟨2, 0⟩, ⟨3, 0⟩, []⟩, ⟨⟨1, 1⟩, ⟨2, 1⟩, []⟩, ⟨⟨0, 2⟩, ⟨1, 2⟩, []⟩]⟩,
   ⟨[⟨⟨2, 0⟩, ⟨2, 0⟩, []⟩, ⟨⟨1, 1⟩, ⟨3, 1⟩, []⟩, ⟨⟨0, 2⟩, ⟨1, 2⟩, []⟩]⟩,
   ⟨[⟨⟨3, 0⟩, ⟨3, 0⟩, []⟩, ⟨⟨1, 1⟩, ⟨3, 1⟩, []⟩, ⟨⟨0, 2⟩, ⟨1, 2⟩, []⟩]⟩,
   ⟨[⟨⟨1, 0⟩, ⟨2, 0⟩, []⟩, ⟨⟨1, 1⟩, ⟨1, 2⟩, []⟩, ⟨⟨0, 3⟩, ⟨1, 3⟩, []⟩]⟩,
   ⟨[⟨⟨1, 0⟩, ⟨1, 0⟩, []⟩, ⟨⟨1, 1⟩, ⟨2, 1⟩, []⟩, ⟨⟨1, 2⟩, ⟨1, 2⟩, []⟩, ⟨⟨0, 3⟩, ⟨1, 3⟩, []⟩]⟩,
   ⟨[⟨⟨1, 0⟩, ⟨1, 1⟩, []⟩, ⟨⟨1, 2⟩, ⟨2, 2⟩, []⟩, ⟨⟨0, 3⟩, ⟨1, 3⟩, []⟩]⟩,
   ⟨[⟨⟨1, 0⟩, ⟨1, 2⟩, []⟩, ⟨⟨0, 3⟩, ⟨2, 3⟩, []⟩]⟩,
   ⟨[⟨⟨2, 0⟩, ⟨2, 0⟩, []⟩, ⟨⟨1, 1⟩, ⟨2, 1⟩, []⟩, ⟨⟨1, 2⟩, ⟨1, 2⟩, []⟩, ⟨⟨0, 3⟩, ⟨1, 3⟩, []⟩]⟩]

/-- Full consistency check of a resolved cube: for every face and edge,
`get_neighbor` succeeds, returns the face recorded in the neighbor
table, the back reference exists, and crossing back returns the original
face through the original edge. -/
def cubeConsistentFull (c : MonkeyCube) : Bool :=
  (List.range 6).all fun i =>
    [Direction.right, .down, .left, .up].all fun d =>
      match c.getNeighbor i d with
      | none => false
      | some (j, d') =>
        decide ((c.faces.getD i default).neighbors.getD d.index 0 = j) &&
        decide ((c.faces.getD j default).neighbors.getD d'.index 0 = i) &&
        decide (c.getNeighbor j d' = some (i, d))

theorem validCubeNets_check :
    validCubeNets.all (fun m =>
      match MonkeyCube.tryFrom? m with
      | some (.ok c) => cubeConsistentFull c
      | _ => true) = true := by decide

/-- The finite core of the closure property: on each of the 64 net
orientations in canonical rendering, a successful `try_from` yields a
neighbor table closed under inversion with a consistent round trip. -/
theorem validCubeNets_closure :
    ∀ m ∈ validCubeNets, ∀ (c : MonkeyCube),
      MonkeyCube.tryFrom? m = some (.ok c) →
      ∀ (i j : Nat) (d : Direction), i < 6 →
        (c.faces.getD i default).neighbors.getD d.index 0 = j →
        ∃ d' : Direction,
          (c.faces.getD j default).neighbors.getD d'.index 0 = i ∧
          c.getNeighbor i d = some (j, d') ∧
          c.getNeighbor j d' = some (i, d) := by
  intro m hm c hc i j d hi hj
  have hall := validCubeNets_check
  rw [List.all_eq_true] at hall
  have hm' := hall m hm
  simp only [hc] at hm'
  rw [cubeConsistentFull, List.all_eq_true] at hm'
  have hi' := hm' i (List.mem_range.mpr hi)
  rw [List.all_eq_true] at hi'
  have hd := hi' d (by cases d <;> simp)
  cases hg : c.getNeighbor i d with
  | none => rw [hg] at hd; cases hd
  | some p =>
    obtain ⟨j0, d'⟩ := p
    rw [hg] at hd
    dsimp only at hd
    rw [Bool.and_eq_true, Bool.and_eq_true] at hd
    obtain ⟨⟨h1, h2⟩, h3⟩ := hd
    rw [decide_eq_true_iff] at h1 h2 h3
    have hjj : j0 = j := h1.symm.trans hj
    subst hjj
    exact ⟨d', h2, rfl, h3⟩

/-- C4: for every valid cube net — any of the 64 orientations of the 11
hexomino nets, rendered at an arbitrary face length `L > 0` and an
arbitrary position, with arbitrary wall sets — on which
`MonkeyCube::try_from` succeeds, the resolved neighbor table is closed
under inversion: if face `i` has neighbor `j` in direction `d`, some
direction of `j` points back at `i`; consequently the back-reference
search of `get_neighbor` succeeds there, and crossing from `j` back
through that direction returns to `i` through `d`.  The reduction to the
finite check is `tryFromRows_scale`: the table only depends on the block
layout up to the grid map. -/
theorem c4_neighbor_closure :
    ∀ (m shape : MonkeyMap) (L : Int) (o : Point) (c : MonkeyCube),
      shape ∈ validCubeNets → 0 < L →
      blockBoxes m = blockBoxes (scaleMap L o shape) →
      MonkeyCube.tryFrom? m = some (.ok c) →
      ∀ (i j : Nat) (d : Direction), i < 6 →
        (c.faces.getD i default).neighbors.getD d.index 0 = j →
        ∃ d' : Direction,
          (c.faces.getD j default).neighbors.getD d'.index 0 = i ∧
          c.getNeighbor i d = some (j, d') ∧
          c.getNeighbor j d' = some (i, d) := by
  intro m shape L o c hshape hL hbox hok i j d hi hj
  have hrows := tryFromRows_scale hL o m shape hbox
  obtain ⟨c0, hok0, hr⟩ := tryFrom_ok_transfer hrows hok
  have hj0 : (c0.faces.getD i default).neighbors.getD d.index 0 = j := by
    rw [← rowAt_eq_of_rows_eq hr i]
    exact hj
  obtain ⟨d', h1, h2, h3⟩ := validCubeNets_closure shape hshape c0 hok0 i j d hi hj0
  refine ⟨d', ?_, ?_, ?_⟩
  · rw [rowAt_eq_of_rows_eq hr j]
    exact h1
  · rw [getNeighbor_eq_of_rows_eq hr i d]
    exact h2
  · rw [getNeighbor_eq_of_rows_eq hr j d']
    exact h3

/-- The worked example map: the cross net at face length 4, with its
walls. -/
def c4ExampleMap : MonkeyMap :=
  ⟨[⟨⟨8, 0⟩, ⟨11, 3⟩, [⟨11, 0⟩, ⟨9, 1⟩, ⟨8, 2⟩]⟩,
    ⟨⟨0, 4⟩, ⟨11, 7⟩, [⟨3, 4⟩, ⟨11, 4⟩, ⟨8, 5⟩, ⟨2, 6⟩, ⟨7, 6⟩, ⟨10, 7⟩]⟩,
    ⟨⟨8, 8⟩, ⟨15, 11⟩, [⟨11, 8⟩, ⟨13, 9⟩, ⟨9, 10⟩, ⟨14, 11⟩]⟩]⟩

/-- The canonical (face length 1, origin) orientation of the same cross
net. -/
def c4ExampleShape : MonkeyMap :=
  ⟨[⟨⟨2, 0⟩, ⟨2, 0⟩, []⟩, ⟨⟨0, 1⟩, ⟨2, 1⟩, []⟩, ⟨⟨2, 2⟩, ⟨3, 2⟩, []⟩]⟩

/-- The cube `try_from` resolves for the worked example map. -/
def c4ExampleCube : MonkeyCube :=
  ⟨4,
   [⟨⟨8, 0⟩, ⟨12, 4⟩, [⟨3, 0⟩, ⟨1, 1⟩, ⟨0, 2⟩], [5, 3, 2, 1]⟩,
    ⟨⟨0, 4⟩, ⟨4, 8⟩, [⟨3, 0⟩, ⟨2, 2⟩], [2, 4, 5, 0]⟩,
    ⟨⟨4, 4⟩, ⟨8, 8⟩, [⟨3, 2⟩], [3, 4, 1, 0]⟩,
    ⟨⟨8, 4⟩, ⟨12, 8⟩, [⟨3, 0⟩, ⟨0, 1⟩, ⟨2, 3⟩], [5, 4, 2, 0]⟩,
    ⟨⟨8, 8⟩, ⟨12, 12⟩, [⟨3, 0⟩, ⟨1, 2⟩], [5, 1, 2, 3]⟩,
    ⟨⟨12, 8⟩, ⟨16, 12⟩, [⟨1, 1⟩, ⟨2, 3⟩], [0, 1, 4, 3]⟩]⟩

/-- C4 witness: the closure theorem applied to the walled face-length-4
cross net of the worked example (its layout is the canonical cross shape
rendered at face length 4), at face 0, direction right (neighbor face 5,
reached back through its right edge). -/
theorem c4_neighbor_closure_witness :
    c4ExampleShape ∈ validCubeNets ∧
    blockBoxes c4ExampleMap = blockBoxes (scaleMap 4 ⟨0, 0⟩ c4ExampleShape) ∧
    MonkeyCube.tryFrom? c4ExampleMap = some (.ok c4ExampleCube) ∧
    ∃ d' : Direction,
      (c4ExampleCube.faces.getD 5 default).neighbors.getD d'.index 0 = 0 ∧
      c4ExampleCube.getNeighbor 0 .right = some (5, d') ∧
      c4ExampleCube.getNeighbor 5 d' = some (0, .right) := by
  refine ⟨by decide, by decide, by decide, ?_⟩
  exact c4_neighbor_closure c4ExampleMap c4ExampleShape 4 ⟨0, 0⟩ c4ExampleCube (by decide)
    (by decide) (by decide) (by decide) 0 5 .right (by decide) (by decide)

end Day22
